import Mathlib

/-!
# SDL2 smoke-test programs of the trading OS image

A shallow embedding of the four diagnostic programs
`simple_test.c`, `test_kms.c`, `render_test.c` and `render_test_ttf.c`.

Each `main` is modelled as a function from an *environment* (the outcome of
every fallible SDL call, the tick counter readings and the input events the
backend delivers) to a `Run`: the sequence of SDL calls the program makes,
split into initialisation, one list per executed loop iteration, and
teardown, together with the exit status.

What is abstracted: text written to stdout/stderr, pure queries
(`SDL_GetError`, `SDL_GetRendererInfo`, `SDL_GetCurrentVideoDriver`), and the
floating point geometry of animated shapes (a rectangle is identified by the
C variable that holds it).  Handles of surfaces and textures are natural
numbers drawn from a counter, so every successful creation yields a handle
never seen before.  The `int` counters `frame` and `fps_update_counter` are
unbounded naturals.
-/

namespace TradingOS

/-! ## Data model -/

/-- Handle of a surface or texture returned by the backend. -/
abbrev Handle := Nat

/-- The three font variables of `render_test_ttf.c`. -/
inductive FontVar
  | font_small
  | font_medium
  | font_large
  deriving DecidableEq, Repr

/-- The texture variables of `render_test_ttf.c`; a slot names both the
variable and the rectangle the texture is blitted to. -/
inductive Slot
  | logo
  | text_title
  | text_subtitle
  | text_label (i : Nat)
  | text_fps
  deriving DecidableEq, Repr

/-- Rectangle variables passed to the fill and outline calls. -/
inductive Shape
  | rect1
  | rect2
  | rect3
  | bg_rect1
  | bg_rect2
  | bg_rect3
  | bar_bg (i : Nat)
  | bar_fg (i : Nat)
  | btn (i : Nat)
  | pulse
  deriving DecidableEq, Repr

/-- One call into SDL2 / SDL2_ttf / SDL2_image, with the result the backend
gave where the program looks at it.  For the subsystem initialisers `ret`
says whether the call succeeded; for window, renderer and font it says
whether the returned pointer is non-null; surfaces and textures carry their
handle. -/
inductive Call
  | SDL_Init (ret : Bool)
  | TTF_Init (ret : Bool)
  | IMG_Init (ret : Bool)
  | SDL_CreateWindow (ret : Bool)
  | SDL_CreateRenderer (ret : Bool)
  | TTF_OpenFont (f : FontVar) (ptsize : Nat) (ret : Bool)
  | IMG_Load (path : String) (ret : Option Handle)
  | TTF_RenderText_Blended (f : FontVar) (dst : Slot) (ret : Option Handle)
  | SDL_CreateTextureFromSurface (dst : Slot) (surf : Handle) (ret : Option Handle)
  | SDL_FreeSurface (surf : Handle)
  | SDL_SetRenderDrawColor (r g b a : Nat)
  | SDL_RenderClear
  | SDL_RenderFillRect (s : Shape)
  | SDL_RenderDrawRect (s : Shape)
  | SDL_RenderDrawLine (x1 y1 x2 y2 : Nat)
  | SDL_RenderDrawPoint (angle : Nat)
  | SDL_RenderCopy (tex : Handle) (dst : Slot)
  | SDL_RenderPresent
  | SDL_Delay (ms : Nat)
  | SDL_DestroyTexture (tex : Handle)
  | TTF_CloseFont (f : FontVar)
  | SDL_DestroyRenderer (ren : Bool)
  | SDL_DestroyWindow (win : Bool)
  | IMG_Quit
  | TTF_Quit
  | SDL_Quit
  deriving DecidableEq, Repr

/-- An execution of one of the programs.  `exit = none` means the frame loop
was still running when the observation stopped. -/
structure Run where
  pre : List Call
  frames : List (List Call)
  post : List Call
  exit : Option Int

/-- All calls of a run in program order. -/
def Run.trace (r : Run) : List Call :=
  r.pre ++ r.frames.flatten ++ r.post

/-! ### Input events and the tick counter -/

/-- The two fields of `SDL_Event` the programs read. -/
structure SDL_Event where
  type : Nat
  sym : Nat
  deriving DecidableEq, Repr

/-- Value of the SDL2 header constant `SDL_QUIT`. -/
def SDL_QUIT : Nat := 0x100

/-- Value of the SDL2 header constant `SDL_KEYDOWN`. -/
def SDL_KEYDOWN : Nat := 0x300

/-- Value of the SDL2 header constant `SDLK_ESCAPE`. -/
def SDLK_ESCAPE : Nat := 27

/-- What the backend delivers to one loop iteration: the tick counter read by
the loop condition, the events `SDL_PollEvent` hands out before it returns 0,
and the outcome of the two fallible calls of the fps label regeneration
(used by `render_test_ttf` only, and only when the regeneration runs). -/
structure FrameEnv where
  ticksCond : Nat
  events : List SDL_Event
  fpsSurf : Bool
  fpsTex : Bool

/-- The test `event.type == SDL_QUIT || (event.type == SDL_KEYDOWN &&
event.key.keysym.sym == SDLK_ESCAPE)`. -/
def isQuitEvent (e : SDL_Event) : Bool :=
  e.type == SDL_QUIT || (e.type == SDL_KEYDOWN && e.sym == SDLK_ESCAPE)

/-- The inner loop `while (SDL_PollEvent(&event)) { if (...) running = 0; }`. -/
def pollEvents : List SDL_Event → Bool → Bool
  | [], running => running
  | e :: es, running => pollEvents es (if isQuitEvent e then false else running)

/-- The `Uint32` expression `SDL_GetTicks() - start_time`. -/
def elapsed (now start : Nat) : Nat :=
  (now % 2 ^ 32 + 2 ^ 32 - start % 2 ^ 32) % 2 ^ 32

/-! ## simple_test.c -/

namespace simple_test

/-- Outcome of the three acquisition calls; the program looks at none. -/
structure Env where
  sdlInit : Bool
  window : Bool
  renderer : Bool

/-- Body of the `for` loop for a given `i`. -/
def frameBody (i : Nat) : List Call :=
  [Call.SDL_SetRenderDrawColor (i % 256) ((i * 2) % 256) ((i * 3) % 256) 255,
   Call.SDL_RenderClear,
   Call.SDL_RenderPresent,
   Call.SDL_Delay 16]

/-- The loop `for (int i = 0; i < 300; i++)`, started at a given `i`. -/
def loop (i : Nat) : List (List Call) :=
  if i < 300 then frameBody i :: loop (i + 1) else []
termination_by 300 - i

/-- Model of `main` in `simple_test.c`. -/
def main (env : Env) : Run :=
  { pre := [Call.SDL_Init env.sdlInit,
            Call.SDL_CreateWindow env.window,
            Call.SDL_CreateRenderer env.renderer]
    frames := loop 0
    post := [Call.SDL_DestroyRenderer env.renderer,
             Call.SDL_DestroyWindow env.window,
             Call.SDL_Quit]
    exit := some 0 }

end simple_test

/-! ## test_kms.c -/

namespace test_kms

/-- Outcome of the two acquisition calls. -/
structure Env where
  sdlInit : Bool
  window : Bool

/-- Model of `main` in `test_kms.c`. -/
def main (env : Env) : Run :=
  if !env.sdlInit then
    { pre := [Call.SDL_Init false], frames := [], post := [], exit := some 1 }
  else if !env.window then
    { pre := [Call.SDL_Init true, Call.SDL_CreateWindow false]
      frames := []
      post := [Call.SDL_Quit]
      exit := some 1 }
  else
    { pre := [Call.SDL_Init true, Call.SDL_CreateWindow true, Call.SDL_Delay 2000]
      frames := []
      post := [Call.SDL_DestroyWindow true, Call.SDL_Quit]
      exit := some 0 }

end test_kms

/-! ## render_test.c -/

namespace render_test

/-- Outcome of the acquisition calls, the first tick reading, and the
per-iteration input. -/
structure Env where
  sdlInit : Bool
  window : Bool
  renderer : Bool
  startTicks : Nat
  frame : Nat → FrameEnv

/-- Local variables of `main` that live across loop iterations. -/
structure LoopState where
  running : Bool
  frame : Nat

/-- The ten vertical lines `for (int i = 0; i < 10; i++)`. -/
def drawLines : List Call :=
  (List.range 10).map fun i => Call.SDL_RenderDrawLine (i * 100) 0 (i * 100) 1080

/-- The circle `for (int angle = 0; angle < 360; angle += 1)`. -/
def drawCircle : List Call :=
  (List.range 360).map fun angle => Call.SDL_RenderDrawPoint angle

/-- The drawing calls of one iteration. -/
def drawFrame : List Call :=
  [Call.SDL_SetRenderDrawColor 0 0 0 255,
   Call.SDL_RenderClear,
   Call.SDL_SetRenderDrawColor 255 0 0 255,
   Call.SDL_RenderFillRect Shape.rect1,
   Call.SDL_SetRenderDrawColor 0 255 0 255,
   Call.SDL_RenderFillRect Shape.rect2,
   Call.SDL_SetRenderDrawColor 0 0 255 255,
   Call.SDL_RenderFillRect Shape.rect3,
   Call.SDL_SetRenderDrawColor 255 255 255 255]
  ++ drawLines
  ++ [Call.SDL_SetRenderDrawColor 0 255 255 255]
  ++ drawCircle
  ++ [Call.SDL_RenderPresent]

/-- One iteration of the animation loop. -/
def frameBody (fe : FrameEnv) (st : LoopState) : LoopState × List Call :=
  ({ running := pollEvents fe.events st.running, frame := st.frame + 1 }, drawFrame)

/-- The loop `while (running && (SDL_GetTicks() - start_time) < 10000)`:
at most `fuel` evaluations of the condition, `k` is the index of the next
iteration.  Returns the calls of each iteration, the last state, and whether
the condition was seen false. -/
def loop (env : Env) : Nat → Nat → LoopState → List (List Call) × LoopState × Bool
  | 0, _, st => ([], st, false)
  | fuel + 1, k, st =>
    if st.running && decide (elapsed (env.frame k).ticksCond env.startTicks < 10000) then
      let b := frameBody (env.frame k) st
      let r := loop env fuel (k + 1) b.1
      (b.2 :: r.1, r.2)
    else ([], st, true)

/-- Model of `main` in `render_test.c`. -/
def main (env : Env) (fuel : Nat) : Run :=
  if !env.sdlInit then
    { pre := [Call.SDL_Init false], frames := [], post := [], exit := some 1 }
  else if !env.window then
    { pre := [Call.SDL_Init true, Call.SDL_CreateWindow false]
      frames := []
      post := [Call.SDL_Quit]
      exit := some 1 }
  else if !env.renderer then
    { pre := [Call.SDL_Init true, Call.SDL_CreateWindow true, Call.SDL_CreateRenderer false]
      frames := []
      post := [Call.SDL_DestroyWindow true, Call.SDL_Quit]
      exit := some 1 }
  else
    let r := loop env fuel 0 { running := true, frame := 0 }
    { pre := [Call.SDL_Init true, Call.SDL_CreateWindow true, Call.SDL_CreateRenderer true]
      frames := r.1
      post := if r.2.2 then
                [Call.SDL_DestroyRenderer true, Call.SDL_DestroyWindow true, Call.SDL_Quit]
              else []
      exit := if r.2.2 then some 0 else none }

end render_test

/-! ## render_test_ttf.c -/

namespace render_test_ttf

/-- Outcome of every fallible call made before the loop, the first tick
reading, and the per-iteration input.  `imgLoad p` says whether
`IMG_Load(p)` returns a surface, `logoTex p` whether the texture creation
from that surface succeeds; `labelSurf i`, `labelTex i` are the same two
outcomes for `labels[i]`. -/
structure Env where
  sdlInit : Bool
  ttfInit : Bool
  imgInit : Bool
  window : Bool
  renderer : Bool
  fontSmall : Bool
  fontMedium : Bool
  fontLarge : Bool
  imgLoad : String → Bool
  logoTex : String → Bool
  titleSurf : Bool
  titleTex : Bool
  subtitleSurf : Bool
  subtitleTex : Bool
  labelSurf : Nat → Bool
  labelTex : Nat → Bool
  startTicks : Nat
  frame : Nat → FrameEnv

/-- The array `logo_paths` without its terminating `NULL`. -/
def logo_paths : List String :=
  ["/opt/trading/assets/logo.png", "/home/trading/logo.png"]

/-- Result of a piece of straight-line code: the value it leaves in the
variable of interest, the handle counter afterwards, and the calls made. -/
structure Step (α : Type) where
  val : α
  next : Nat
  calls : List Call

/-- The block that occurs four times in `main`:
`surf = TTF_RenderText_Blended(font, ...); if (surf) { var =
SDL_CreateTextureFromSurface(renderer, surf); ...; SDL_FreeSurface(surf); }`.
`old` is the value of `var` before the block; it is kept when `surf` is
null. -/
def renderText (f : FontVar) (dst : Slot) (surfOk texOk : Bool)
    (old : Option Handle) (next : Nat) : Step (Option Handle) :=
  if surfOk then
    if texOk then
      { val := some (next + 1)
        next := next + 2
        calls := [Call.TTF_RenderText_Blended f dst (some next),
                  Call.SDL_CreateTextureFromSurface dst next (some (next + 1)),
                  Call.SDL_FreeSurface next] }
    else
      { val := none
        next := next + 1
        calls := [Call.TTF_RenderText_Blended f dst (some next),
                  Call.SDL_CreateTextureFromSurface dst next none,
                  Call.SDL_FreeSurface next] }
  else
    { val := old, next := next, calls := [Call.TTF_RenderText_Blended f dst none] }

/-- The loop `for (int i = 0; logo_paths[i] != NULL && !logo; i++)` over the
paths not yet visited, with the current value of `logo`. -/
def loadLogo (env : Env) : List String → Option Handle → Nat → Step (Option Handle)
  | [], logo, next => { val := logo, next := next, calls := [] }
  | p :: ps, logo, next =>
    if logo.isSome then { val := logo, next := next, calls := [] }
    else if env.imgLoad p then
      let tex : Option Handle := if env.logoTex p then some (next + 1) else none
      let r := loadLogo env ps tex (next + 2)
      { val := r.val
        next := r.next
        calls := [Call.IMG_Load p (some next),
                  Call.SDL_CreateTextureFromSurface Slot.logo next tex,
                  Call.SDL_FreeSurface next] ++ r.calls }
    else
      let r := loadLogo env ps none next
      { val := r.val, next := r.next, calls := Call.IMG_Load p none :: r.calls }

/-- The loop `for (int i = 0; i < 10; i++)` that pre-renders the labels,
over the indices not yet visited; yields the entries of `text_label`. -/
def renderLabels (env : Env) : List Nat → Nat → Step (List (Option Handle))
  | [], next => { val := [], next := next, calls := [] }
  | i :: is, next =>
    let s := renderText FontVar.font_medium (Slot.text_label i)
      (env.labelSurf i) (env.labelTex i) none next
    let r := renderLabels env is s.next
    { val := s.val :: r.val, next := r.next, calls := s.calls ++ r.calls }

/-- Variables set before the loop and read-only afterwards. -/
structure Assets where
  font_small : Bool
  font_medium : Bool
  font_large : Bool
  logo : Option Handle
  text_title : Option Handle
  text_subtitle : Option Handle
  text_label : List (Option Handle)

/-- Local variables of `main` that change across loop iterations. -/
structure LoopState where
  running : Bool
  frame : Nat
  fps_update_counter : Nat
  text_fps : Option Handle
  next : Nat

/-- The statement `if (tex) SDL_RenderCopy(renderer, tex, NULL, &rect);`. -/
def copyIf (tex : Option Handle) (dst : Slot) : List Call :=
  match tex with
  | some h => [Call.SDL_RenderCopy h dst]
  | none => []

/-- The statement `if (tex) SDL_DestroyTexture(tex);`. -/
def destroyIf (tex : Option Handle) : List Call :=
  match tex with
  | some h => [Call.SDL_DestroyTexture h]
  | none => []

/-- The statement `if (font) TTF_CloseFont(font);`. -/
def closeIf (loaded : Bool) (f : FontVar) : List Call :=
  if loaded then [Call.TTF_CloseFont f] else []

/-- The loop over `text_label` that blits the non-null entries, from index
`i` on. -/
def copyLabels : List (Option Handle) → Nat → List Call
  | [], _ => []
  | t :: ts, i => copyIf t (Slot.text_label i) ++ copyLabels ts (i + 1)

/-- The loop over `text_label` that destroys the non-null entries. -/
def destroyLabels : List (Option Handle) → List Call
  | [] => []
  | t :: ts => destroyIf t ++ destroyLabels ts

/-- The three progress bars `for (int i = 0; i < 3; i++)`. -/
def drawBars : List Call :=
  ((List.range 3).map fun i =>
    [Call.SDL_SetRenderDrawColor 40 40 50 255,
     Call.SDL_RenderFillRect (Shape.bar_bg i),
     Call.SDL_SetRenderDrawColor 0 200 100 255,
     Call.SDL_RenderFillRect (Shape.bar_fg i),
     Call.SDL_SetRenderDrawColor 0 255 255 255,
     Call.SDL_RenderDrawRect (Shape.bar_bg i)]).flatten

/-- The four buttons `for (int i = 0; i < 4; i++)`. -/
def drawButtons : List Call :=
  ((List.range 4).map fun i =>
    [Call.SDL_SetRenderDrawColor 60 60 80 255,
     Call.SDL_RenderFillRect (Shape.btn i),
     Call.SDL_SetRenderDrawColor 0 255 255 255,
     Call.SDL_RenderDrawRect (Shape.btn i)]).flatten

/-- The drawing calls of an iteration up to and including the label loop. -/
def drawStatic (A : Assets) : List Call :=
  [Call.SDL_SetRenderDrawColor 20 20 30 255, Call.SDL_RenderClear]
  ++ copyIf A.logo Slot.logo
  ++ [Call.SDL_SetRenderDrawColor 40 40 50 255,
      Call.SDL_RenderFillRect Shape.bg_rect1,
      Call.SDL_RenderFillRect Shape.bg_rect2,
      Call.SDL_RenderFillRect Shape.bg_rect3,
      Call.SDL_SetRenderDrawColor 0 255 255 255,
      Call.SDL_RenderDrawRect Shape.bg_rect1,
      Call.SDL_RenderDrawRect Shape.bg_rect2,
      Call.SDL_RenderDrawRect Shape.bg_rect3]
  ++ drawBars
  ++ drawButtons
  ++ [Call.SDL_SetRenderDrawColor 255 0 0 255, Call.SDL_RenderFillRect Shape.pulse]
  ++ copyIf A.text_title Slot.text_title
  ++ copyIf A.text_subtitle Slot.text_subtitle
  ++ copyLabels A.text_label 0

/-- The block `fps_update_counter++; if (fps_update_counter >= 10 &&
font_small) { ... fps_update_counter = 0; }`. -/
def updateFps (font_small : Bool) (fe : FrameEnv) (st : LoopState) :
    LoopState × List Call :=
  let c := st.fps_update_counter + 1
  if decide (10 ≤ c) && font_small then
    let s := renderText FontVar.font_small Slot.text_fps fe.fpsSurf fe.fpsTex
      st.text_fps st.next
    ({ st with fps_update_counter := 0, text_fps := s.val, next := s.next },
     destroyIf st.text_fps ++ s.calls)
  else ({ st with fps_update_counter := c }, [])

/-- One iteration of the animation loop. -/
def frameBody (A : Assets) (fe : FrameEnv) (st : LoopState) : LoopState × List Call :=
  let u := updateFps A.font_small fe st
  ({ u.1 with running := pollEvents fe.events st.running, frame := st.frame + 1 },
   drawStatic A ++ u.2 ++ copyIf u.1.text_fps Slot.text_fps ++ [Call.SDL_RenderPresent])

/-- The loop `while (running && (SDL_GetTicks() - start_time) < 20000)`:
at most `fuel` evaluations of the condition, `k` is the index of the next
iteration.  Returns the calls of each iteration, the last state, and whether
the condition was seen false. -/
def loop (env : Env) (A : Assets) :
    Nat → Nat → LoopState → List (List Call) × LoopState × Bool
  | 0, _, st => ([], st, false)
  | fuel + 1, k, st =>
    if st.running && decide (elapsed (env.frame k).ticksCond env.startTicks < 20000) then
      let b := frameBody A (env.frame k) st
      let r := loop env A fuel (k + 1) b.1
      (b.2 :: r.1, r.2)
    else ([], st, true)

/-- The cleanup section at the end of `main`. -/
def cleanup (A : Assets) (text_fps : Option Handle) : List Call :=
  destroyIf text_fps
  ++ destroyIf A.text_title
  ++ destroyIf A.text_subtitle
  ++ destroyLabels A.text_label
  ++ destroyIf A.logo
  ++ closeIf A.font_small FontVar.font_small
  ++ closeIf A.font_medium FontVar.font_medium
  ++ closeIf A.font_large FontVar.font_large
  ++ [Call.SDL_DestroyRenderer true, Call.SDL_DestroyWindow true,
      Call.IMG_Quit, Call.TTF_Quit, Call.SDL_Quit]

/-- The five acquisition calls when all succeed. -/
def initCalls : List Call :=
  [Call.SDL_Init true, Call.TTF_Init true, Call.IMG_Init true,
   Call.SDL_CreateWindow true, Call.SDL_CreateRenderer true]

/-- The three `TTF_OpenFont` calls. -/
def openFonts (env : Env) : List Call :=
  [Call.TTF_OpenFont FontVar.font_small 16 env.fontSmall,
   Call.TTF_OpenFont FontVar.font_medium 24 env.fontMedium,
   Call.TTF_OpenFont FontVar.font_large 36 env.fontLarge]

/-- The logo loop as run by `main`: all paths, `logo = NULL`, handle
counter 0. -/
def logoStep (env : Env) : Step (Option Handle) :=
  loadLogo env logo_paths none 0

/-- The block `if (font_large) { ... text_title ... }`. -/
def titleStep (env : Env) : Step (Option Handle) :=
  if env.fontLarge then
    renderText FontVar.font_large Slot.text_title env.titleSurf env.titleTex none
      (logoStep env).next
  else { val := none, next := (logoStep env).next, calls := [] }

/-- The block `if (font_medium) { ... text_subtitle ... }`. -/
def subtitleStep (env : Env) : Step (Option Handle) :=
  if env.fontMedium then
    renderText FontVar.font_medium Slot.text_subtitle env.subtitleSurf env.subtitleTex none
      (titleStep env).next
  else { val := none, next := (titleStep env).next, calls := [] }

/-- The block `if (font_medium) { for (...) text_label[i] ... }`; the array
starts as all null. -/
def labelStep (env : Env) : Step (List (Option Handle)) :=
  if env.fontMedium then renderLabels env (List.range 10) (subtitleStep env).next
  else { val := List.replicate 10 none, next := (subtitleStep env).next, calls := [] }

/-- The variables as they stand when the loop is entered. -/
def assets (env : Env) : Assets :=
  { font_small := env.fontSmall
    font_medium := env.fontMedium
    font_large := env.fontLarge
    logo := (logoStep env).val
    text_title := (titleStep env).val
    text_subtitle := (subtitleStep env).val
    text_label := (labelStep env).val }

/-- The loop state at loop entry. -/
def initState (env : Env) : LoopState :=
  { running := true
    frame := 0
    fps_update_counter := 0
    text_fps := none
    next := (labelStep env).next }

/-- Model of `main` in `render_test_ttf.c`. -/
def main (env : Env) (fuel : Nat) : Run :=
  if !env.sdlInit then
    { pre := [Call.SDL_Init false], frames := [], post := [], exit := some 1 }
  else if !env.ttfInit then
    { pre := [Call.SDL_Init true, Call.TTF_Init false]
      frames := []
      post := [Call.SDL_Quit]
      exit := some 1 }
  else if !env.imgInit then
    { pre := [Call.SDL_Init true, Call.TTF_Init true, Call.IMG_Init false]
      frames := []
      post := [Call.TTF_Quit, Call.SDL_Quit]
      exit := some 1 }
  else if !env.window then
    { pre := [Call.SDL_Init true, Call.TTF_Init true, Call.IMG_Init true,
              Call.SDL_CreateWindow false]
      frames := []
      post := [Call.IMG_Quit, Call.TTF_Quit, Call.SDL_Quit]
      exit := some 1 }
  else if !env.renderer then
    { pre := [Call.SDL_Init true, Call.TTF_Init true, Call.IMG_Init true,
              Call.SDL_CreateWindow true, Call.SDL_CreateRenderer false]
      frames := []
      post := [Call.SDL_DestroyWindow true, Call.IMG_Quit, Call.TTF_Quit, Call.SDL_Quit]
      exit := some 1 }
  else
    let r := loop env (assets env) fuel 0 (initState env)
    { pre := initCalls ++ openFonts env ++ (logoStep env).calls ++ (titleStep env).calls
               ++ (subtitleStep env).calls ++ (labelStep env).calls
      frames := r.1
      post := if r.2.2 then cleanup (assets env) r.2.1.text_fps else []
      exit := if r.2.2 then some 0 else none }

end render_test_ttf

/-! ## Observations on call sequences -/

/-- Everything a program can hold and must give back. -/
inductive Res
  | sdl
  | ttf
  | img
  | window
  | renderer
  | font (f : FontVar)
  | surface (h : Handle)
  | texture (h : Handle)
  deriving DecidableEq, Repr

/-- The resource a call hands to the program, if any. -/
def acquires : Call → Option Res
  | Call.SDL_Init true => some Res.sdl
  | Call.TTF_Init true => some Res.ttf
  | Call.IMG_Init true => some Res.img
  | Call.SDL_CreateWindow true => some Res.window
  | Call.SDL_CreateRenderer true => some Res.renderer
  | Call.TTF_OpenFont f _ true => some (Res.font f)
  | Call.IMG_Load _ (some s) => some (Res.surface s)
  | Call.TTF_RenderText_Blended _ _ (some s) => some (Res.surface s)
  | Call.SDL_CreateTextureFromSurface _ _ (some t) => some (Res.texture t)
  | _ => none

/-- The resource a call gives back, if any. -/
def releases : Call → Option Res
  | Call.SDL_FreeSurface s => some (Res.surface s)
  | Call.SDL_DestroyTexture t => some (Res.texture t)
  | Call.TTF_CloseFont f => some (Res.font f)
  | Call.SDL_DestroyRenderer true => some Res.renderer
  | Call.SDL_DestroyWindow true => some Res.window
  | Call.IMG_Quit => some Res.img
  | Call.TTF_Quit => some Res.ttf
  | Call.SDL_Quit => some Res.sdl
  | _ => none

/-- Effect of one call on the collection of live resources. -/
def liveStep (L : Multiset Res) (c : Call) : Multiset Res :=
  match acquires c with
  | some r => r ::ₘ L
  | none =>
    match releases c with
    | some r => L.erase r
    | none => L

/-- Resources acquired and not yet released after a call sequence. -/
def live (t : List Call) : Multiset Res :=
  t.foldl liveStep 0

/-- Effect of one call on the collection of live fps textures: a texture
created for `text_fps` enters, a destroyed texture leaves. -/
def fpsStep (F : Multiset Handle) : Call → Multiset Handle
  | Call.SDL_CreateTextureFromSurface Slot.text_fps _ (some t) => t ::ₘ F
  | Call.SDL_DestroyTexture t => F.erase t
  | _ => F

/-- The fps textures created and not yet destroyed after a call sequence. -/
def fpsLive (t : List Call) : Multiset Handle :=
  t.foldl fpsStep 0

/-- Whether every texture handle passed to `SDL_RenderCopy` or
`SDL_DestroyTexture` is live at the call, given the textures live before the
sequence. -/
def texSafeFrom : List Handle → List Call → Bool
  | _, [] => true
  | L, Call.SDL_CreateTextureFromSurface _ _ (some t) :: cs => texSafeFrom (t :: L) cs
  | L, Call.SDL_RenderCopy h _ :: cs => decide (h ∈ L) && texSafeFrom L cs
  | L, Call.SDL_DestroyTexture h :: cs => decide (h ∈ L) && texSafeFrom (L.erase h) cs
  | L, _ :: cs => texSafeFrom L cs

/-- Position of a release call in the teardown order: textures and fonts,
then the renderer, the window, and the three subsystems. -/
def releaseRank : Call → Option Nat
  | Call.SDL_DestroyTexture _ => some 0
  | Call.TTF_CloseFont _ => some 0
  | Call.SDL_DestroyRenderer _ => some 1
  | Call.SDL_DestroyWindow _ => some 2
  | Call.IMG_Quit => some 3
  | Call.TTF_Quit => some 4
  | Call.SDL_Quit => some 5
  | _ => none

/-- The resources of the bootstrap phase: subsystems, window, renderer. -/
def isCore : Res → Bool
  | Res.sdl => true
  | Res.ttf => true
  | Res.img => true
  | Res.window => true
  | Res.renderer => true
  | _ => false

/-- Bootstrap resources in the order the sequence acquires them. -/
def coreAcquired (t : List Call) : List Res :=
  (t.filterMap acquires).filter isCore

/-- Bootstrap resources in the order the sequence releases them. -/
def coreReleased (t : List Call) : List Res :=
  (t.filterMap releases).filter isCore

/-- The rectangle a blit goes to. -/
def copySlot : Call → Option Slot
  | Call.SDL_RenderCopy _ d => some d
  | _ => none

/-- The elements a call sequence blits, in order. -/
def copySlots (t : List Call) : List Slot :=
  t.filterMap copySlot

/-- The rectangle a fill or outline call draws. -/
def primitive : Call → Option Shape
  | Call.SDL_RenderFillRect s => some s
  | Call.SDL_RenderDrawRect s => some s
  | _ => none

/-- The primitive shapes a call sequence draws, in order. -/
def primitives (t : List Call) : List Shape :=
  t.filterMap primitive

/-- The primitive shapes of one `render_test_ttf` frame: three boxes filled
and outlined, three bars (background, foreground, outline), four buttons
(fill, outline) and the pulsing square. -/
def allPrimitives : List Shape :=
  [Shape.bg_rect1, Shape.bg_rect2, Shape.bg_rect3,
   Shape.bg_rect1, Shape.bg_rect2, Shape.bg_rect3,
   Shape.bar_bg 0, Shape.bar_fg 0, Shape.bar_bg 0,
   Shape.bar_bg 1, Shape.bar_fg 1, Shape.bar_bg 1,
   Shape.bar_bg 2, Shape.bar_fg 2, Shape.bar_bg 2,
   Shape.btn 0, Shape.btn 0, Shape.btn 1, Shape.btn 1,
   Shape.btn 2, Shape.btn 2, Shape.btn 3, Shape.btn 3,
   Shape.pulse]

/-- The path an image load call reads. -/
def loadedPath : Call → Option String
  | Call.IMG_Load p _ => some p
  | _ => none

/-- Whether an event is a quit signal or an Escape key press. -/
def QuitOrEscape (e : SDL_Event) : Prop :=
  e.type = SDL_QUIT ∨ (e.type = SDL_KEYDOWN ∧ e.sym = SDLK_ESCAPE)

/-- Whether all three acquisition calls of `simple_test` succeed. -/
def simple_test.initOk (env : simple_test.Env) : Bool :=
  env.sdlInit && env.window && env.renderer

/-- Whether both acquisition calls of `test_kms` succeed. -/
def test_kms.initOk (env : test_kms.Env) : Bool :=
  env.sdlInit && env.window

/-- Whether all three acquisition calls of `render_test` succeed. -/
def render_test.initOk (env : render_test.Env) : Bool :=
  env.sdlInit && env.window && env.renderer

/-- Whether all five acquisition calls of `render_test_ttf` succeed. -/
def render_test_ttf.initOk (env : render_test_ttf.Env) : Bool :=
  env.sdlInit && env.ttfInit && env.imgInit && env.window && env.renderer

/-- Calls that load a font or an image or pre-render a text other than the
fps label. -/
def isLoadCall : Call → Bool
  | Call.TTF_OpenFont _ _ _ => true
  | Call.IMG_Load _ _ => true
  | Call.TTF_RenderText_Blended _ d _ => decide (d ≠ Slot.text_fps)
  | Call.SDL_CreateTextureFromSurface d _ _ => decide (d ≠ Slot.text_fps)
  | Call.SDL_FreeSurface _ => true
  | _ => false

/-- Calls that release a texture or a font. -/
def isAssetRelease : Call → Bool
  | Call.SDL_DestroyTexture _ => true
  | Call.TTF_CloseFont _ => true
  | _ => false

/-- Calls made before the frame loop: the bootstrap, font and image loads,
and the pre-rendering of every text but the fps label. -/
def isSetupCall : Call → Bool
  | Call.SDL_Init _ => true
  | Call.TTF_Init _ => true
  | Call.IMG_Init _ => true
  | Call.SDL_CreateWindow _ => true
  | Call.SDL_CreateRenderer _ => true
  | Call.SDL_Delay _ => true
  | Call.TTF_OpenFont _ _ _ => true
  | Call.IMG_Load _ _ => true
  | Call.TTF_RenderText_Blended _ d _ => decide (d ≠ Slot.text_fps)
  | Call.SDL_CreateTextureFromSurface d _ _ => decide (d ≠ Slot.text_fps)
  | Call.SDL_FreeSurface _ => true
  | _ => false

/-- Calls that only draw. -/
def isDrawCall : Call → Bool
  | Call.SDL_SetRenderDrawColor _ _ _ _ => true
  | Call.SDL_RenderClear => true
  | Call.SDL_RenderFillRect _ => true
  | Call.SDL_RenderDrawRect _ => true
  | Call.SDL_RenderDrawLine _ _ _ _ => true
  | Call.SDL_RenderDrawPoint _ => true
  | Call.SDL_RenderCopy _ _ => true
  | Call.SDL_RenderPresent => true
  | Call.SDL_Delay _ => true
  | _ => false

/-- Calls of the fps label regeneration. -/
def isFpsUpdateCall : Call → Bool
  | Call.SDL_DestroyTexture _ => true
  | Call.TTF_RenderText_Blended FontVar.font_small Slot.text_fps _ => true
  | Call.SDL_CreateTextureFromSurface Slot.text_fps _ _ => true
  | Call.SDL_FreeSurface _ => true
  | _ => false

/-- Calls of the cleanup section. -/
def isCleanupCall : Call → Bool
  | Call.SDL_DestroyTexture _ => true
  | Call.TTF_CloseFont _ => true
  | Call.SDL_DestroyRenderer _ => true
  | Call.SDL_DestroyWindow _ => true
  | Call.IMG_Quit => true
  | Call.TTF_Quit => true
  | Call.SDL_Quit => true
  | _ => false

/-- Whether some candidate path yields a logo texture. -/
def render_test_ttf.logoLoads (env : render_test_ttf.Env) : Bool :=
  render_test_ttf.logo_paths.any fun p => env.imgLoad p && env.logoTex p

/-- Every text rendering and every texture creation from rendered text
succeeds. -/
def render_test_ttf.TextOk (env : render_test_ttf.Env) : Prop :=
  env.titleSurf = true ∧ env.titleTex = true
  ∧ env.subtitleSurf = true ∧ env.subtitleTex = true
  ∧ (∀ i, env.labelSurf i = true ∧ env.labelTex i = true)
  ∧ ∀ k, (env.frame k).fpsSurf = true ∧ (env.frame k).fpsTex = true

/-- The elements blitted in iteration `n` (counted from 0) when every text
rendering succeeds. -/
def render_test_ttf.expectedSlots (env : render_test_ttf.Env) (n : Nat) : List Slot :=
  (if render_test_ttf.logoLoads env then [Slot.logo] else [])
  ++ (if env.fontLarge then [Slot.text_title] else [])
  ++ (if env.fontMedium then Slot.text_subtitle :: (List.range 10).map Slot.text_label else [])
  ++ (if env.fontSmall && decide (10 ≤ n + 1) then [Slot.text_fps] else [])

/-- A property holds of the state reached after every prefix of a call
sequence. -/
def Along {σ : Type} (P : σ → Prop) (step : σ → Call → σ) (s : σ) (l : List Call) :
    Prop :=
  ∀ n, P ((l.take n).foldl step s)

/-- The texture a variable holds, as a collection of resources. -/
def optTex : Option Handle → Multiset Res
  | some h => {Res.texture h}
  | none => 0

/-- The textures an array of variables holds. -/
def texsOf : List (Option Handle) → Multiset Res
  | [] => 0
  | t :: ts => optTex t + texsOf ts

/-- The font a variable holds, as a collection of resources. -/
def fontRes (loaded : Bool) (f : FontVar) : Multiset Res :=
  if loaded then {Res.font f} else 0

/-- The handle a variable holds, as a collection of handles. -/
def optHandle : Option Handle → Multiset Handle
  | some h => {h}
  | none => 0

/-! ## Concrete environments -/

/-- A frame with no input at tick 0. -/
def quietFrame : FrameEnv :=
  { ticksCond := 0, events := [], fpsSurf := true, fpsTex := true }

/-- A frame whose condition check reads tick 60000. -/
def lateFrame : FrameEnv :=
  { ticksCond := 60000, events := [], fpsSurf := true, fpsTex := true }

/-- A frame in which the Escape key is pressed. -/
def escapeFrame : FrameEnv :=
  { ticksCond := 0, events := [{ type := SDL_KEYDOWN, sym := SDLK_ESCAPE }]
    fpsSurf := true, fpsTex := true }

/-- The environment of `simple_test` in which `SDL_Init` fails. -/
def simpleInitFails : simple_test.Env :=
  { sdlInit := false, window := true, renderer := true }

/-- An environment of `render_test` where everything succeeds and the clock
has run out at the third condition check. -/
def renderTwoFrames : render_test.Env :=
  { sdlInit := true, window := true, renderer := true, startTicks := 0
    frame := fun k => if k < 2 then quietFrame else lateFrame }

/-- An environment of `render_test` where Escape is pressed in iteration 1
and the clock never advances. -/
def renderEscape : render_test.Env :=
  { sdlInit := true, window := true, renderer := true, startTicks := 0
    frame := fun k => if k = 1 then escapeFrame else quietFrame }

/-- An environment of `render_test_ttf` where every call succeeds and the
frames are given. -/
def ttfAllOk (frame : Nat → FrameEnv) : render_test_ttf.Env :=
  { sdlInit := true, ttfInit := true, imgInit := true, window := true, renderer := true
    fontSmall := true, fontMedium := true, fontLarge := true
    imgLoad := fun _ => true, logoTex := fun _ => true
    titleSurf := true, titleTex := true, subtitleSurf := true, subtitleTex := true
    labelSurf := fun _ => true, labelTex := fun _ => true
    startTicks := 0
    frame := frame }

/-- Everything succeeds; the clock has run out at the third condition check. -/
def ttfTwoFrames : render_test_ttf.Env :=
  ttfAllOk fun k => if k < 2 then quietFrame else lateFrame

/-- Everything succeeds; Escape is pressed in iteration 1 and the clock never
advances. -/
def ttfEscape : render_test_ttf.Env :=
  ttfAllOk fun k => if k = 1 then escapeFrame else quietFrame

/-- Everything succeeds except that `TTF_RenderText_Blended` returns null in
the second regeneration of the fps label (iteration index 19); a quit event
arrives in that iteration. -/
def ttfSecondRenderFails : render_test_ttf.Env :=
  ttfAllOk fun k =>
    if k = 19 then
      { ticksCond := 0, events := [{ type := SDL_QUIT, sym := 0 }]
        fpsSurf := false, fpsTex := true }
    else quietFrame

/-- The medium font fails to load and the first logo path has no file; all
else succeeds.  Eleven iterations run before the budget is seen elapsed. -/
def ttfMediumFontAndFirstLogoMissing : render_test_ttf.Env :=
  { ttfAllOk (fun k => if k < 11 then quietFrame else lateFrame) with
    fontMedium := false
    imgLoad := fun p => p == "/home/trading/logo.png" }

/-- Every font and the logo load, but rendering the title text fails. -/
def ttfTitleRenderFails : render_test_ttf.Env :=
  { ttfTwoFrames with titleSurf := false }

end TradingOS

/-! ## Proofs -/

namespace TradingOS

/-! ### Events and the loop condition -/

theorem pollEvents_false (es : List SDL_Event) : pollEvents es false = false := by
  induction es with
  | nil => rfl
  | cons e es ih => simp [pollEvents, ih]

theorem isQuitEvent_iff (e : SDL_Event) : isQuitEvent e = true ↔ QuitOrEscape e := by
  simp [isQuitEvent, QuitOrEscape]

theorem pollEvents_quit (es : List SDL_Event) (b : Bool)
    (h : ∃ e ∈ es, QuitOrEscape e) : pollEvents es b = false := by
  induction es generalizing b with
  | nil => simp at h
  | cons e es ih =>
    simp only [pollEvents]
    by_cases he : isQuitEvent e = true
    · simp [he, pollEvents_false]
    · obtain ⟨x, hx, hq⟩ := h
      rcases List.mem_cons.1 hx with rfl | hx
      · exact absurd ((isQuitEvent_iff x).2 hq) he
      · exact ih _ ⟨x, hx, hq⟩

/-! ### simple_test -/

theorem simple_test.loop_eq (n i : Nat) (h : i + n = 300) :
    simple_test.loop i = (List.range' i n).map simple_test.frameBody := by
  induction n generalizing i with
  | zero =>
    rw [simple_test.loop]
    have : ¬ i < 300 := by omega
    simp [this]
  | succ n ih =>
    rw [simple_test.loop]
    have hi : i < 300 := by omega
    simp only [hi, if_true, List.range'_succ, List.map_cons]
    rw [ih (i + 1) (by omega)]

theorem simple_test.frames_eq (env : simple_test.Env) :
    (simple_test.main env).frames = (List.range 300).map simple_test.frameBody := by
  simp only [simple_test.main, List.range_eq_range']
  exact simple_test.loop_eq 300 0 rfl

theorem simple_test.count_present_frames (l : List Nat) :
    ((l.map simple_test.frameBody).flatten).count Call.SDL_RenderPresent = l.length := by
  induction l with
  | nil => rfl
  | cons a l ih =>
    simp only [List.map_cons, List.flatten_cons, List.count_append, ih, List.length_cons]
    simp [simple_test.frameBody, List.count_cons]
    omega

/-- C2: whatever the three acquisition calls return, `simple_test` runs its
`for` body for i = 0..299, each iteration presenting exactly one frame, so
that 300 frames are presented in all; the calls that follow the last
iteration are `SDL_DestroyRenderer`, `SDL_DestroyWindow`, `SDL_Quit`, and
the exit status is 0. -/
theorem simple_test_presents_300_frames (env : simple_test.Env) :
    (simple_test.main env).frames = (List.range 300).map simple_test.frameBody
    ∧ (∀ f ∈ (simple_test.main env).frames, f.count Call.SDL_RenderPresent = 1)
    ∧ (simple_test.main env).trace.count Call.SDL_RenderPresent = 300
    ∧ (simple_test.main env).trace =
        [Call.SDL_Init env.sdlInit, Call.SDL_CreateWindow env.window,
         Call.SDL_CreateRenderer env.renderer]
        ++ ((List.range 300).map simple_test.frameBody).flatten
        ++ [Call.SDL_DestroyRenderer env.renderer, Call.SDL_DestroyWindow env.window,
            Call.SDL_Quit]
    ∧ (simple_test.main env).exit = some 0 := by
  have hf := simple_test.frames_eq env
  have ht : (simple_test.main env).trace =
        [Call.SDL_Init env.sdlInit, Call.SDL_CreateWindow env.window,
         Call.SDL_CreateRenderer env.renderer]
        ++ ((List.range 300).map simple_test.frameBody).flatten
        ++ [Call.SDL_DestroyRenderer env.renderer, Call.SDL_DestroyWindow env.window,
            Call.SDL_Quit] := by
    rw [Run.trace, hf]
    rfl
  refine ⟨hf, ?_, ?_, ht, rfl⟩
  · intro f hfm
    rw [hf] at hfm
    obtain ⟨i, _, rfl⟩ := List.mem_map.1 hfm
    simp [simple_test.frameBody, List.count_cons]
  · rw [ht, List.count_append, List.count_append, simple_test.count_present_frames]
    simp [List.count_cons]


/-! ### The loop of render_test -/

theorem render_test.loop_stopped_rt (env : render_test.Env) (fuel k : Nat)
    (st : render_test.LoopState) (h : st.running = false) :
    (render_test.loop env fuel k st).1 = []
    ∧ (1 ≤ fuel → (render_test.loop env fuel k st).2.2 = true) := by
  cases fuel with
  | zero => simp [render_test.loop]
  | succ fuel => simp [render_test.loop, h]

theorem render_test.loop_clock_rt (env : render_test.Env) (K : Nat)
    (hK : 10000 ≤ elapsed (env.frame K).ticksCond env.startTicks) :
    ∀ fuel k st, k ≤ K → K + 1 ≤ k + fuel →
      (render_test.loop env fuel k st).2.2 = true := by
  intro fuel
  induction fuel with
  | zero => intro k st h1 h2; omega
  | succ fuel ih =>
    intro k st h1 h2
    simp only [render_test.loop]
    split
    · next hc =>
      have hne : k ≠ K := by
        rintro rfl
        simp at hc
        omega
      exact ih (k + 1) _ (by omega) (by omega)
    · rfl

theorem render_test.loop_quit_rt (env : render_test.Env) (K : Nat)
    (hq : ∃ e ∈ (env.frame K).events, QuitOrEscape e) :
    ∀ fuel k st, k ≤ K →
      (render_test.loop env fuel k st).1.length ≤ K + 1 - k
      ∧ (K + 2 ≤ k + fuel → (render_test.loop env fuel k st).2.2 = true) := by
  intro fuel
  induction fuel with
  | zero =>
    intro k st h1
    simp only [render_test.loop, List.length_nil]
    omega
  | succ fuel ih =>
    intro k st h1
    simp only [render_test.loop]
    split
    · by_cases hk : k = K
      · subst hk
        have hs := render_test.loop_stopped_rt env fuel (k + 1)
          (render_test.frameBody (env.frame k) st).1
          (by simp [render_test.frameBody, pollEvents_quit _ _ hq])
        simp only [List.length_cons, hs.1, List.length_nil]
        exact ⟨by omega, fun h => hs.2 (by omega)⟩
      · have := ih (k + 1) (render_test.frameBody (env.frame k) st).1 (by omega)
        simp only [List.length_cons]
        exact ⟨by omega, fun h => this.2 (by omega)⟩
    · simp

theorem render_test.main_of_ok_rt (env : render_test.Env) (h : render_test.initOk env = true)
    (fuel : Nat) :
    render_test.main env fuel =
      { pre := [Call.SDL_Init true, Call.SDL_CreateWindow true, Call.SDL_CreateRenderer true]
        frames := (render_test.loop env fuel 0 { running := true, frame := 0 }).1
        post := if (render_test.loop env fuel 0 { running := true, frame := 0 }).2.2 then
                  [Call.SDL_DestroyRenderer true, Call.SDL_DestroyWindow true, Call.SDL_Quit]
                else []
        exit := if (render_test.loop env fuel 0 { running := true, frame := 0 }).2.2 then
                  some 0 else none } := by
  simp only [render_test.initOk, Bool.and_eq_true] at h
  obtain ⟨⟨h1, h2⟩, h3⟩ := h
  simp [render_test.main, h1, h2, h3]

theorem render_test.exit_of_not_ok_rt (env : render_test.Env)
    (h : render_test.initOk env = false) (fuel : Nat) :
    (render_test.main env fuel).exit = some 1
    ∧ (render_test.main env fuel).frames = [] := by
  cases h1 : env.sdlInit <;> cases h2 : env.window <;> cases h3 : env.renderer <;>
    simp_all [render_test.main, render_test.initOk]

/-! ### The loop of render_test_ttf -/

theorem render_test_ttf.loop_stopped (env : render_test_ttf.Env)
    (A : render_test_ttf.Assets) (fuel k : Nat)
    (st : render_test_ttf.LoopState) (h : st.running = false) :
    (render_test_ttf.loop env A fuel k st).1 = []
    ∧ (render_test_ttf.loop env A fuel k st).2.1 = st
    ∧ (1 ≤ fuel → (render_test_ttf.loop env A fuel k st).2.2 = true) := by
  cases fuel with
  | zero => simp [render_test_ttf.loop]
  | succ fuel => simp [render_test_ttf.loop, h]

theorem render_test_ttf.loop_clock (env : render_test_ttf.Env)
    (A : render_test_ttf.Assets) (K : Nat)
    (hK : 20000 ≤ elapsed (env.frame K).ticksCond env.startTicks) :
    ∀ fuel k st, k ≤ K → K + 1 ≤ k + fuel →
      (render_test_ttf.loop env A fuel k st).2.2 = true := by
  intro fuel
  induction fuel with
  | zero => intro k st h1 h2; omega
  | succ fuel ih =>
    intro k st h1 h2
    simp only [render_test_ttf.loop]
    split
    · next hc =>
      have hne : k ≠ K := by
        rintro rfl
        simp at hc
        omega
      exact ih (k + 1) _ (by omega) (by omega)
    · rfl

theorem render_test_ttf.loop_quit (env : render_test_ttf.Env)
    (A : render_test_ttf.Assets) (K : Nat)
    (hq : ∃ e ∈ (env.frame K).events, QuitOrEscape e) :
    ∀ fuel k st, k ≤ K →
      (render_test_ttf.loop env A fuel k st).1.length ≤ K + 1 - k
      ∧ (K + 2 ≤ k + fuel → (render_test_ttf.loop env A fuel k st).2.2 = true) := by
  intro fuel
  induction fuel with
  | zero =>
    intro k st h1
    simp only [render_test_ttf.loop, List.length_nil]
    omega
  | succ fuel ih =>
    intro k st h1
    simp only [render_test_ttf.loop]
    split
    · by_cases hk : k = K
      · subst hk
        have hs := render_test_ttf.loop_stopped env A fuel (k + 1)
          (render_test_ttf.frameBody A (env.frame k) st).1
          (by simp [render_test_ttf.frameBody, pollEvents_quit _ _ hq])
        simp only [List.length_cons, hs.1, List.length_nil]
        exact ⟨by omega, fun h => hs.2.2 (by omega)⟩
      · have := ih (k + 1) (render_test_ttf.frameBody A (env.frame k) st).1 (by omega)
        simp only [List.length_cons]
        exact ⟨by omega, fun h => this.2 (by omega)⟩
    · simp

theorem render_test_ttf.main_of_ok (env : render_test_ttf.Env)
    (h : render_test_ttf.initOk env = true) (fuel : Nat) :
    render_test_ttf.main env fuel =
      { pre := render_test_ttf.initCalls ++ render_test_ttf.openFonts env
                 ++ (render_test_ttf.logoStep env).calls ++ (render_test_ttf.titleStep env).calls
                 ++ (render_test_ttf.subtitleStep env).calls
                 ++ (render_test_ttf.labelStep env).calls
        frames := (render_test_ttf.loop env (render_test_ttf.assets env) fuel 0
                    (render_test_ttf.initState env)).1
        post := if (render_test_ttf.loop env (render_test_ttf.assets env) fuel 0
                    (render_test_ttf.initState env)).2.2 then
                  render_test_ttf.cleanup (render_test_ttf.assets env)
                    (render_test_ttf.loop env (render_test_ttf.assets env) fuel 0
                      (render_test_ttf.initState env)).2.1.text_fps
                else []
        exit := if (render_test_ttf.loop env (render_test_ttf.assets env) fuel 0
                    (render_test_ttf.initState env)).2.2 then some 0 else none } := by
  simp only [render_test_ttf.initOk, Bool.and_eq_true] at h
  obtain ⟨⟨⟨⟨h1, h2⟩, h3⟩, h4⟩, h5⟩ := h
  simp [render_test_ttf.main, h1, h2, h3, h4, h5]

theorem render_test_ttf.exit_of_not_ok (env : render_test_ttf.Env)
    (h : render_test_ttf.initOk env = false) (fuel : Nat) :
    (render_test_ttf.main env fuel).exit = some 1
    ∧ (render_test_ttf.main env fuel).frames = [] := by
  cases h1 : env.sdlInit <;> cases h2 : env.ttfInit <;> cases h3 : env.imgInit <;>
    cases h4 : env.window <;> cases h5 : env.renderer <;>
    simp_all [render_test_ttf.main, render_test_ttf.initOk]

/-! ### Exit status -/

/-- C1 (counterexample): in `simple_test` with `SDL_Init` failing, an
acquisition step has failed and yet the exit status is not 1. -/
theorem simple_test_ignores_init_failure :
    ¬ (simple_test.initOk simpleInitFails = false →
        (simple_test.main simpleInitFails).exit = some 1) := by
  decide

/-- C1 (amended): `test_kms`, `render_test` and `render_test_ttf` return 1
when any acquisition call they make fails and never return anything but 0
when all succeed; the two looping programs do return 0 once the loop is
over, at the latest at the first condition check that reads an elapsed time
at or beyond the budget.  `simple_test` checks no call and returns 0 in
every case. -/
theorem exit_status_of_programs :
    (∀ env : test_kms.Env,
      (test_kms.main env).exit = some (if test_kms.initOk env then 0 else 1))
    ∧ (∀ env : render_test.Env, render_test.initOk env = false →
        ∀ fuel, (render_test.main env fuel).exit = some 1)
    ∧ (∀ env : render_test.Env, render_test.initOk env = true →
        (∀ fuel c, (render_test.main env fuel).exit = some c → c = 0)
        ∧ ∀ K, 10000 ≤ elapsed (env.frame K).ticksCond env.startTicks →
            ∀ fuel, K + 1 ≤ fuel → (render_test.main env fuel).exit = some 0)
    ∧ (∀ env : render_test_ttf.Env, render_test_ttf.initOk env = false →
        ∀ fuel, (render_test_ttf.main env fuel).exit = some 1)
    ∧ (∀ env : render_test_ttf.Env, render_test_ttf.initOk env = true →
        (∀ fuel c, (render_test_ttf.main env fuel).exit = some c → c = 0)
        ∧ ∀ K, 20000 ≤ elapsed (env.frame K).ticksCond env.startTicks →
            ∀ fuel, K + 1 ≤ fuel → (render_test_ttf.main env fuel).exit = some 0)
    ∧ (∀ env : simple_test.Env, (simple_test.main env).exit = some 0) := by
  refine ⟨?_, ?_, ?_, ?_, ?_, fun _ => rfl⟩
  · intro env
    cases h1 : env.sdlInit <;> cases h2 : env.window <;>
      simp [test_kms.main, test_kms.initOk, h1, h2]
  · intro env h fuel
    exact (render_test.exit_of_not_ok_rt env h fuel).1
  · intro env h
    refine ⟨?_, ?_⟩
    · intro fuel c hc
      rw [render_test.main_of_ok_rt env h] at hc
      simp only at hc
      split at hc
      · exact (Option.some.inj hc).symm
      · exact absurd hc (by simp)
    · intro K hK fuel hf
      rw [render_test.main_of_ok_rt env h]
      simp [render_test.loop_clock_rt env K hK fuel 0 _ (Nat.zero_le K) (by omega)]
  · intro env h fuel
    exact (render_test_ttf.exit_of_not_ok env h fuel).1
  · intro env h
    refine ⟨?_, ?_⟩
    · intro fuel c hc
      rw [render_test_ttf.main_of_ok env h] at hc
      simp only at hc
      split at hc
      · exact (Option.some.inj hc).symm
      · exact absurd hc (by simp)
    · intro K hK fuel hf
      rw [render_test_ttf.main_of_ok env h]
      simp [render_test_ttf.loop_clock env _ K hK fuel 0 _ (Nat.zero_le K) (by omega)]

/-- C1 (witness): the amended statement at concrete environments. -/
theorem exit_status_of_programs_witness :
    (render_test.main { renderEscape with window := false } 0).exit = some 1
    ∧ (render_test.main renderTwoFrames 3).exit = some 0
    ∧ (render_test_ttf.main { ttfEscape with imgInit := false } 0).exit = some 1
    ∧ (render_test_ttf.main ttfTwoFrames 3).exit = some 0 :=
  ⟨exit_status_of_programs.2.1 { renderEscape with window := false } (by decide) 0,
   (exit_status_of_programs.2.2.1 renderTwoFrames (by decide)).2 2 (by decide) 3 (by decide),
   exit_status_of_programs.2.2.2.1 { ttfEscape with imgInit := false } (by decide) 0,
   (exit_status_of_programs.2.2.2.2.1 ttfTwoFrames (by decide)).2 2 (by decide) 3
     (by decide)⟩

/-! ### Quit and Escape -/

/-- C4: in `render_test` and `render_test_ttf`, if a quit event or an Escape
key-down event is among the events drained in iteration `k` (counted from
0), then whatever the tick counter reads no run has more than `k + 1`
iterations, and every run allowed `k + 2` evaluations of the loop condition
has left the loop and returned. -/
theorem quit_event_ends_loop (k : Nat) :
    (∀ env : render_test.Env, (∃ e ∈ (env.frame k).events, QuitOrEscape e) →
      ∀ fuel, (render_test.main env fuel).frames.length ≤ k + 1
        ∧ (k + 2 ≤ fuel → (render_test.main env fuel).exit ≠ none))
    ∧ (∀ env : render_test_ttf.Env, (∃ e ∈ (env.frame k).events, QuitOrEscape e) →
      ∀ fuel, (render_test_ttf.main env fuel).frames.length ≤ k + 1
        ∧ (k + 2 ≤ fuel → (render_test_ttf.main env fuel).exit ≠ none)) := by
  refine ⟨?_, ?_⟩
  · intro env hq fuel
    cases h : render_test.initOk env with
    | false =>
      have := render_test.exit_of_not_ok_rt env h fuel
      simp [this.1, this.2]
    | true =>
      rw [render_test.main_of_ok_rt env h]
      have := render_test.loop_quit_rt env k hq fuel 0 { running := true, frame := 0 }
        (Nat.zero_le k)
      refine ⟨by simpa using this.1, fun hf => ?_⟩
      simp [this.2 (by omega)]
  · intro env hq fuel
    cases h : render_test_ttf.initOk env with
    | false =>
      have := render_test_ttf.exit_of_not_ok env h fuel
      simp [this.1, this.2]
    | true =>
      rw [render_test_ttf.main_of_ok env h]
      have := render_test_ttf.loop_quit env (render_test_ttf.assets env) k hq fuel 0
        (render_test_ttf.initState env) (Nat.zero_le k)
      refine ⟨by simpa using this.1, fun hf => ?_⟩
      simp [this.2 (by omega)]

/-- C4 (witness): Escape pressed in iteration 1 with a clock that never
advances. -/
theorem quit_event_ends_loop_witness :
    ((render_test.main renderEscape 50).frames.length ≤ 1 + 1
      ∧ (1 + 2 ≤ 50 → (render_test.main renderEscape 50).exit ≠ none))
    ∧ ((render_test_ttf.main ttfEscape 50).frames.length ≤ 1 + 1
      ∧ (1 + 2 ≤ 50 → (render_test_ttf.main ttfEscape 50).exit ≠ none)) :=
  ⟨(quit_event_ends_loop 1).1 renderEscape
      ⟨{ type := SDL_KEYDOWN, sym := SDLK_ESCAPE }, by decide, Or.inr ⟨rfl, rfl⟩⟩ 50,
   (quit_event_ends_loop 1).2 ttfEscape
      ⟨{ type := SDL_KEYDOWN, sym := SDLK_ESCAPE }, by decide, Or.inr ⟨rfl, rfl⟩⟩ 50⟩


/-! ### Which calls occur where in render_test_ttf -/

theorem render_test_ttf.renderText_load (f : FontVar) (dst : Slot) (a b : Bool)
    (old : Option Handle) (n : Nat) (hd : dst ≠ Slot.text_fps) :
    ∀ c ∈ (render_test_ttf.renderText f dst a b old n).calls, isLoadCall c = true := by
  intro c hc
  cases a <;> cases b <;> simp [render_test_ttf.renderText] at hc <;>
    rcases hc with rfl | rfl | rfl <;> simp [isLoadCall, hd]

theorem render_test_ttf.loadLogo_some (env : render_test_ttf.Env) (ps : List String)
    (t : Handle) (n : Nat) :
    render_test_ttf.loadLogo env ps (some t) n = { val := some t, next := n, calls := [] } := by
  cases ps <;> simp [render_test_ttf.loadLogo]

theorem render_test_ttf.loadLogo_load (env : render_test_ttf.Env) :
    ∀ ps logo n, ∀ c ∈ (render_test_ttf.loadLogo env ps logo n).calls,
      isLoadCall c = true := by
  intro ps
  induction ps with
  | nil => intro logo n c hc; simp [render_test_ttf.loadLogo] at hc
  | cons p ps ih =>
    intro logo n c hc
    simp only [render_test_ttf.loadLogo] at hc
    split at hc
    · simp at hc
    · split at hc
      · simp only [List.cons_append, List.nil_append, List.mem_cons] at hc
        rcases hc with rfl | rfl | rfl | hc
        · rfl
        · simp [isLoadCall]
        · rfl
        · exact ih _ _ c hc
      · simp only [List.mem_cons] at hc
        rcases hc with rfl | hc
        · rfl
        · exact ih _ _ c hc

theorem render_test_ttf.renderLabels_load (env : render_test_ttf.Env) :
    ∀ is n, ∀ c ∈ (render_test_ttf.renderLabels env is n).calls, isLoadCall c = true := by
  intro is
  induction is with
  | nil => intro n c hc; simp [render_test_ttf.renderLabels] at hc
  | cons i is ih =>
    intro n c hc
    simp only [render_test_ttf.renderLabels, List.mem_append] at hc
    rcases hc with hc | hc
    · exact render_test_ttf.renderText_load _ _ _ _ _ _ (by simp) c hc
    · exact ih _ c hc

theorem isSetupCall_of_load (c : Call) (h : isLoadCall c = true) : isSetupCall c = true := by
  cases c <;> first | exact h | exact absurd h (by simp [isLoadCall])

theorem render_test_ttf.openFonts_load (env : render_test_ttf.Env) :
    ∀ c ∈ render_test_ttf.openFonts env, isLoadCall c = true := by
  intro c hc
  simp only [render_test_ttf.openFonts, List.mem_cons, List.mem_singleton,
    List.not_mem_nil, or_false] at hc
  rcases hc with rfl | rfl | rfl <;> rfl

theorem render_test_ttf.logoStep_load (env : render_test_ttf.Env) :
    ∀ c ∈ (render_test_ttf.logoStep env).calls, isLoadCall c = true :=
  render_test_ttf.loadLogo_load env _ _ _

theorem render_test_ttf.titleStep_load (env : render_test_ttf.Env) :
    ∀ c ∈ (render_test_ttf.titleStep env).calls, isLoadCall c = true := by
  intro c hc
  unfold render_test_ttf.titleStep at hc
  split at hc
  · exact render_test_ttf.renderText_load _ _ _ _ _ _ (by simp) c hc
  · simp at hc

theorem render_test_ttf.subtitleStep_load (env : render_test_ttf.Env) :
    ∀ c ∈ (render_test_ttf.subtitleStep env).calls, isLoadCall c = true := by
  intro c hc
  unfold render_test_ttf.subtitleStep at hc
  split at hc
  · exact render_test_ttf.renderText_load _ _ _ _ _ _ (by simp) c hc
  · simp at hc

theorem render_test_ttf.labelStep_load (env : render_test_ttf.Env) :
    ∀ c ∈ (render_test_ttf.labelStep env).calls, isLoadCall c = true := by
  intro c hc
  unfold render_test_ttf.labelStep at hc
  split at hc
  · exact render_test_ttf.renderLabels_load env _ _ c hc
  · simp at hc

theorem render_test_ttf.pre_setup (env : render_test_ttf.Env) (fuel : Nat) :
    ∀ c ∈ (render_test_ttf.main env fuel).pre, isSetupCall c = true := by
  cases h : render_test_ttf.initOk env with
  | false =>
    intro c hc
    revert hc
    cases h1 : env.sdlInit <;> cases h2 : env.ttfInit <;> cases h3 : env.imgInit <;>
      cases h4 : env.window <;> cases h5 : env.renderer <;>
      simp_all [render_test_ttf.main, render_test_ttf.initOk] <;>
      (intro hc; rcases hc with rfl | rfl | rfl | rfl | rfl) <;> rfl
  | true =>
    rw [render_test_ttf.main_of_ok env h]
    intro c hc
    simp only [List.mem_append] at hc
    rcases hc with ((((hc | hc) | hc) | hc) | hc) | hc
    · revert c; decide
    · exact isSetupCall_of_load c (render_test_ttf.openFonts_load env c hc)
    · exact isSetupCall_of_load c (render_test_ttf.logoStep_load env c hc)
    · exact isSetupCall_of_load c (render_test_ttf.titleStep_load env c hc)
    · exact isSetupCall_of_load c (render_test_ttf.subtitleStep_load env c hc)
    · exact isSetupCall_of_load c (render_test_ttf.labelStep_load env c hc)

theorem render_test_ttf.copyIf_draw (t : Option Handle) (d : Slot) :
    ∀ c ∈ render_test_ttf.copyIf t d, isDrawCall c = true := by
  cases t <;> simp [render_test_ttf.copyIf, isDrawCall]

theorem render_test_ttf.copyLabels_draw :
    ∀ ts i, ∀ c ∈ render_test_ttf.copyLabels ts i, isDrawCall c = true := by
  intro ts
  induction ts with
  | nil => intro i c hc; simp [render_test_ttf.copyLabels] at hc
  | cons t ts ih =>
    intro i c hc
    simp only [render_test_ttf.copyLabels, List.mem_append] at hc
    rcases hc with hc | hc
    · exact render_test_ttf.copyIf_draw _ _ c hc
    · exact ih _ c hc

theorem render_test_ttf.drawStatic_draw (A : render_test_ttf.Assets) :
    ∀ c ∈ render_test_ttf.drawStatic A, isDrawCall c = true := by
  intro c hc
  simp only [render_test_ttf.drawStatic, List.mem_append] at hc
  rcases hc with (((((((hc | hc) | hc) | hc) | hc) | hc) | hc) | hc) | hc
  · revert c; decide
  · exact render_test_ttf.copyIf_draw _ _ c hc
  · revert c; decide
  · revert c; decide
  · revert c; decide
  · revert c; decide
  · exact render_test_ttf.copyIf_draw _ _ c hc
  · exact render_test_ttf.copyIf_draw _ _ c hc
  · exact render_test_ttf.copyLabels_draw _ _ c hc

theorem isCleanupCall_of_asset (c : Call) (h : isAssetRelease c = true) :
    isCleanupCall c = true := by
  cases c <;> first | rfl | exact absurd h (by simp [isAssetRelease])

theorem render_test_ttf.destroyIf_asset (t : Option Handle) :
    ∀ c ∈ render_test_ttf.destroyIf t, isAssetRelease c = true := by
  cases t <;> simp [render_test_ttf.destroyIf, isAssetRelease]

theorem render_test_ttf.updateFps_calls (b : Bool) (fe : FrameEnv)
    (st : render_test_ttf.LoopState) :
    ∀ c ∈ (render_test_ttf.updateFps b fe st).2, isFpsUpdateCall c = true := by
  intro c hc
  unfold render_test_ttf.updateFps at hc
  simp only at hc
  split at hc
  · simp only [List.mem_append] at hc
    rcases hc with hc | hc
    · revert hc
      cases st.text_fps <;> simp [render_test_ttf.destroyIf]
      rintro rfl
      rfl
    · revert hc
      cases fe.fpsSurf <;> cases fe.fpsTex <;> simp [render_test_ttf.renderText] <;>
        (intro hc; rcases hc with rfl | rfl | rfl) <;> rfl
  · simp at hc

/-- Loop induction: a property of the state that every iteration preserves
holds at every iteration and at the end; what an iteration's calls satisfy
holds for every recorded frame. -/
theorem render_test_ttf.loop_inv (env : render_test_ttf.Env) (A : render_test_ttf.Assets)
    (P : Nat → render_test_ttf.LoopState → Prop) (Q : Nat → List Call → Prop)
    (hstep : ∀ k st, P k st →
      P (k + 1) (render_test_ttf.frameBody A (env.frame k) st).1
      ∧ Q k (render_test_ttf.frameBody A (env.frame k) st).2) :
    ∀ fuel k st, P k st →
      P (k + (render_test_ttf.loop env A fuel k st).1.length)
        (render_test_ttf.loop env A fuel k st).2.1
      ∧ ∀ n f, (render_test_ttf.loop env A fuel k st).1[n]? = some f → Q (k + n) f := by
  intro fuel
  induction fuel with
  | zero =>
    intro k st h
    simp [render_test_ttf.loop, h]
  | succ fuel ih =>
    intro k st h
    simp only [render_test_ttf.loop]
    split
    · have hs := hstep k st h
      have := ih (k + 1) _ hs.1
      refine ⟨?_, ?_⟩
      · simp only [List.length_cons]
        have e : k + ((render_test_ttf.loop env A fuel (k + 1)
            (render_test_ttf.frameBody A (env.frame k) st).1).1.length + 1)
            = k + 1 + (render_test_ttf.loop env A fuel (k + 1)
            (render_test_ttf.frameBody A (env.frame k) st).1).1.length := by omega
        rw [e]
        exact this.1
      · intro n f hf
        cases n with
        | zero =>
          simp only [List.getElem?_cons_zero, Option.some.injEq] at hf
          subst hf
          exact hs.2
        | succ n =>
          simp only [List.getElem?_cons_succ] at hf
          have e : k + (n + 1) = k + 1 + n := by omega
          rw [e]
          exact this.2 n f hf
    · simp [h]


/-! ### Regeneration of the fps label -/

theorem render_test_ttf.destroyLabels_asset :
    ∀ ts, ∀ c ∈ render_test_ttf.destroyLabels ts, isAssetRelease c = true := by
  intro ts
  induction ts with
  | nil => intro c hc; simp [render_test_ttf.destroyLabels] at hc
  | cons t ts ih =>
    intro c hc
    simp only [render_test_ttf.destroyLabels, List.mem_append] at hc
    rcases hc with hc | hc
    · exact render_test_ttf.destroyIf_asset _ c hc
    · exact ih c hc

theorem render_test_ttf.closeIf_asset (b : Bool) (f : FontVar) :
    ∀ c ∈ render_test_ttf.closeIf b f, isAssetRelease c = true := by
  cases b <;> simp [render_test_ttf.closeIf, isAssetRelease]

/-- The part of the cleanup section that releases textures and fonts. -/
theorem render_test_ttf.cleanup_split (A : render_test_ttf.Assets) (t : Option Handle) :
    ∃ X, (∀ c ∈ X, isAssetRelease c = true)
      ∧ render_test_ttf.cleanup A t
          = X ++ [Call.SDL_DestroyRenderer true, Call.SDL_DestroyWindow true,
                  Call.IMG_Quit, Call.TTF_Quit, Call.SDL_Quit] := by
  refine ⟨_, ?_, rfl⟩
  intro c hc
  simp only [List.mem_append] at hc
  rcases hc with ((((((hc | hc) | hc) | hc) | hc) | hc) | hc) | hc
  · exact render_test_ttf.destroyIf_asset _ c hc
  · exact render_test_ttf.destroyIf_asset _ c hc
  · exact render_test_ttf.destroyIf_asset _ c hc
  · exact render_test_ttf.destroyLabels_asset _ c hc
  · exact render_test_ttf.destroyIf_asset _ c hc
  · exact render_test_ttf.closeIf_asset _ _ c hc
  · exact render_test_ttf.closeIf_asset _ _ c hc
  · exact render_test_ttf.closeIf_asset _ _ c hc

theorem render_test_ttf.cleanup_cleanup (A : render_test_ttf.Assets) (t : Option Handle) :
    ∀ c ∈ render_test_ttf.cleanup A t, isCleanupCall c = true := by
  obtain ⟨X, hX, he⟩ := render_test_ttf.cleanup_split A t
  rw [he]
  intro c hc
  rcases List.mem_append.1 hc with hc | hc
  · exact isCleanupCall_of_asset c (hX c hc)
  · have hfin : ∀ c ∈ [Call.SDL_DestroyRenderer true, Call.SDL_DestroyWindow true,
        Call.IMG_Quit, Call.TTF_Quit, Call.SDL_Quit], isCleanupCall c = true := by decide
    exact hfin c hc

theorem render_test_ttf.updateFps_cond (b : Bool) (c : Nat) :
    (decide (10 ≤ c) && b) = true ↔ (10 ≤ c ∧ b = true) := by
  simp

theorem render_test_ttf.counter_frame (A : render_test_ttf.Assets) (fe : FrameEnv)
    (st : render_test_ttf.LoopState) :
    (render_test_ttf.frameBody A fe st).1.fps_update_counter
      = if 10 ≤ st.fps_update_counter + 1 ∧ A.font_small = true then 0
        else st.fps_update_counter + 1 := by
  simp only [render_test_ttf.frameBody, render_test_ttf.updateFps]
  by_cases hb : (decide (10 ≤ st.fps_update_counter + 1) && A.font_small) = true
  · rw [if_pos ((render_test_ttf.updateFps_cond _ _).1 hb)]
    simp only [hb, if_true]
  · rw [if_neg (fun h => hb ((render_test_ttf.updateFps_cond _ _).2 h))]
    simp only [hb]
    rfl

theorem render_test_ttf.frameBody_calls (A : render_test_ttf.Assets) (fe : FrameEnv)
    (st : render_test_ttf.LoopState) :
    ∀ c ∈ (render_test_ttf.frameBody A fe st).2,
      isDrawCall c = true ∨ isFpsUpdateCall c = true := by
  intro c hc
  simp only [render_test_ttf.frameBody, List.mem_append, List.mem_singleton] at hc
  rcases hc with ((hc | hc) | hc) | hc
  · exact Or.inl (render_test_ttf.drawStatic_draw A c hc)
  · exact Or.inr (render_test_ttf.updateFps_calls _ _ _ c hc)
  · exact Or.inl (render_test_ttf.copyIf_draw _ _ c hc)
  · subst hc
    exact Or.inl rfl

theorem render_test_ttf.loop_calls (env : render_test_ttf.Env) (A : render_test_ttf.Assets)
    (fuel k : Nat) (st : render_test_ttf.LoopState) :
    ∀ f ∈ (render_test_ttf.loop env A fuel k st).1, ∀ c ∈ f,
      isDrawCall c = true ∨ isFpsUpdateCall c = true := by
  intro f hf
  obtain ⟨n, hn⟩ := List.mem_iff_getElem?.1 hf
  exact (render_test_ttf.loop_inv env A (fun _ _ => True)
    (fun _ f => ∀ c ∈ f, isDrawCall c = true ∨ isFpsUpdateCall c = true)
    (fun k st _ => ⟨trivial, render_test_ttf.frameBody_calls A _ st⟩)
    fuel k st trivial).2 n f hn

theorem render_test_ttf.frames_calls (env : render_test_ttf.Env) (fuel : Nat) :
    ∀ c ∈ (render_test_ttf.main env fuel).frames.flatten,
      isDrawCall c = true ∨ isFpsUpdateCall c = true := by
  intro c hc
  obtain ⟨f, hf, hcf⟩ := List.mem_flatten.1 hc
  cases h : render_test_ttf.initOk env with
  | false =>
    rw [(render_test_ttf.exit_of_not_ok env h fuel).2] at hf
    simp at hf
  | true =>
    rw [render_test_ttf.main_of_ok env h] at hf
    exact render_test_ttf.loop_calls env _ fuel 0 _ f hf c hcf

theorem render_test_ttf.post_cleanup (env : render_test_ttf.Env) (fuel : Nat) :
    ∀ c ∈ (render_test_ttf.main env fuel).post, isCleanupCall c = true := by
  cases h : render_test_ttf.initOk env with
  | false =>
    intro c hc
    revert hc
    cases h1 : env.sdlInit <;> cases h2 : env.ttfInit <;> cases h3 : env.imgInit <;>
      cases h4 : env.window <;> cases h5 : env.renderer <;>
      simp_all [render_test_ttf.main, render_test_ttf.initOk] <;>
      (intro hc; rcases hc with rfl | rfl | rfl | rfl) <;> rfl
  | true =>
    rw [render_test_ttf.main_of_ok env h]
    intro c hc
    simp only at hc
    split at hc
    · exact render_test_ttf.cleanup_cleanup _ _ c hc
    · simp at hc

/-! ### The logo -/

theorem filterMap_eq_nil_of_forall {α β : Type} (g : α → Option β) (l : List α)
    (h : ∀ c ∈ l, g c = none) : l.filterMap g = [] := by
  induction l with
  | nil => rfl
  | cons a l ih =>
    rw [List.filterMap_cons, h a (List.mem_cons_self a l)]
    exact ih fun c hc => h c (List.mem_cons_of_mem a hc)

theorem render_test_ttf.loadLogo_spec (env : render_test_ttf.Env) :
    ∀ ps n,
      (render_test_ttf.loadLogo env ps none n).calls.filterMap loadedPath
        = ps.takeWhile (fun p => !(env.imgLoad p && env.logoTex p))
          ++ (ps.find? fun p => env.imgLoad p && env.logoTex p).toList
      ∧ ((ps.find? fun p => env.imgLoad p && env.logoTex p) = none →
          (render_test_ttf.loadLogo env ps none n).val = none)
      ∧ ∀ p, (ps.find? fun p => env.imgLoad p && env.logoTex p) = some p →
          ∃ s t, (render_test_ttf.loadLogo env ps none n).val = some t
            ∧ [Call.IMG_Load p (some s), Call.SDL_CreateTextureFromSurface Slot.logo s (some t),
                Call.SDL_FreeSurface s]
              <:+: (render_test_ttf.loadLogo env ps none n).calls := by
  intro ps
  induction ps with
  | nil =>
    intro n
    simp [render_test_ttf.loadLogo]
  | cons p ps ih =>
    intro n
    cases h1 : env.imgLoad p with
    | false =>
      have := ih n
      simp only [render_test_ttf.loadLogo, h1, Option.isSome_none, Bool.false_eq_true,
        if_false, List.filterMap_cons, loadedPath, this.1, Bool.false_and, Bool.not_false,
        List.takeWhile_cons_of_pos, List.cons_append, true_and]
      rw [List.find?_cons_of_neg _ (by simp [h1])]
      refine ⟨rfl, this.2.1, fun q hq => ?_⟩
      obtain ⟨s, t, hv, hi⟩ := this.2.2 q hq
      exact ⟨s, t, hv, hi.trans (List.suffix_cons _ _).isInfix⟩
    | true =>
      cases h2 : env.logoTex p with
      | false =>
        have := ih (n + 2)
        simp only [render_test_ttf.loadLogo, h1, h2, Option.isSome_none, Bool.false_eq_true,
          if_false, if_true, List.filterMap_cons, List.filterMap_append, loadedPath, this.1,
          Bool.and_false, Bool.not_false, List.takeWhile_cons_of_pos, List.cons_append,
          List.nil_append, true_and, List.filterMap_nil]
        rw [List.find?_cons_of_neg _ (by simp [h2])]
        refine ⟨rfl, this.2.1, fun q hq => ?_⟩
        obtain ⟨s, t, hv, hi⟩ := this.2.2 q hq
        exact ⟨s, t, hv, List.infix_cons (List.infix_cons (List.infix_cons hi))⟩
      | true =>
        simp only [render_test_ttf.loadLogo, h1, h2, Option.isSome_none, Bool.false_eq_true,
          if_false, if_true, render_test_ttf.loadLogo_some, List.append_nil]
        rw [List.find?_cons_of_pos _ (by simp [h1, h2]),
          List.takeWhile_cons_of_neg (by simp [h1, h2])]
        refine ⟨rfl, by simp, fun q hq => ?_⟩
        simp only [Option.some.injEq] at hq
        subst hq
        exact ⟨n, n + 1, rfl, List.infix_refl _⟩


/-! ### What a frame draws -/

theorem render_test_ttf.copySlots_copyIf (t : Option Handle) (d : Slot) :
    copySlots (render_test_ttf.copyIf t d) = if t.isSome then [d] else [] := by
  cases t <;> rfl

theorem render_test_ttf.primitives_copyIf (t : Option Handle) (d : Slot) :
    primitives (render_test_ttf.copyIf t d) = [] := by
  cases t <;> rfl

theorem render_test_ttf.primitives_copyLabels :
    ∀ ts i, primitives (render_test_ttf.copyLabels ts i) = [] := by
  intro ts
  induction ts with
  | nil => intro i; rfl
  | cons t ts ih =>
    intro i
    simp only [render_test_ttf.copyLabels, primitives, List.filterMap_append] at ih ⊢
    rw [ih]
    cases t <;> rfl

theorem render_test_ttf.copyLabels_none (n i : Nat) :
    render_test_ttf.copyLabels (List.replicate n none) i = [] := by
  induction n generalizing i with
  | zero => rfl
  | succ n ih => simp [List.replicate_succ, render_test_ttf.copyLabels, ih,
      render_test_ttf.copyIf]

theorem render_test_ttf.mem_copySlots_copyLabels :
    ∀ ts i s, s ∈ copySlots (render_test_ttf.copyLabels ts i) →
      ∃ j, s = Slot.text_label j ∧ i ≤ j ∧ j < i + ts.length := by
  intro ts
  induction ts with
  | nil => intro i s hs; simp [render_test_ttf.copyLabels, copySlots] at hs
  | cons t ts ih =>
    intro i s hs
    simp only [render_test_ttf.copyLabels, copySlots, List.filterMap_append,
      List.mem_append] at hs
    rcases hs with hs | hs
    · have := render_test_ttf.copySlots_copyIf t (Slot.text_label i)
      simp only [copySlots] at this
      rw [this] at hs
      split at hs
      · simp only [List.mem_singleton] at hs
        exact ⟨i, hs, Nat.le_refl i, by simp⟩
      · simp at hs
    · obtain ⟨j, h1, h2, h3⟩ := ih (i + 1) s hs
      exact ⟨j, h1, by omega, by simp only [List.length_cons]; omega⟩

theorem render_test_ttf.copySlots_copyLabels_all :
    ∀ ts i, (∀ t ∈ ts, Option.isSome t = true) →
      copySlots (render_test_ttf.copyLabels ts i)
        = (List.range' i ts.length).map Slot.text_label := by
  intro ts
  induction ts with
  | nil => intro i _; rfl
  | cons t ts ih =>
    intro i h
    have ht := h t (List.mem_cons_self t ts)
    have := ih (i + 1) fun u hu => h u (List.mem_cons_of_mem t hu)
    simp only [copySlots] at this
    simp only [render_test_ttf.copyLabels, copySlots, List.filterMap_append, this,
      List.length_cons, List.range'_succ, List.map_cons]
    have h2 := render_test_ttf.copySlots_copyIf t (Slot.text_label i)
    simp only [copySlots] at h2
    rw [h2, ht]
    rfl

theorem render_test_ttf.copySlots_drawStatic (A : render_test_ttf.Assets) :
    copySlots (render_test_ttf.drawStatic A)
      = (if A.logo.isSome then [Slot.logo] else [])
        ++ (if A.text_title.isSome then [Slot.text_title] else [])
        ++ (if A.text_subtitle.isSome then [Slot.text_subtitle] else [])
        ++ copySlots (render_test_ttf.copyLabels A.text_label 0) := by
  have h1 := render_test_ttf.copySlots_copyIf A.logo Slot.logo
  have h2 := render_test_ttf.copySlots_copyIf A.text_title Slot.text_title
  have h3 := render_test_ttf.copySlots_copyIf A.text_subtitle Slot.text_subtitle
  simp only [copySlots] at h1 h2 h3
  simp only [render_test_ttf.drawStatic, copySlots, List.filterMap_append, h1, h2, h3]
  have e1 : List.filterMap copySlot render_test_ttf.drawBars = [] := by decide
  have e2 : List.filterMap copySlot render_test_ttf.drawButtons = [] := by decide
  rw [e1, e2]
  simp [copySlot]

theorem render_test_ttf.primitives_drawStatic (A : render_test_ttf.Assets) :
    primitives (render_test_ttf.drawStatic A) = allPrimitives := by
  have h1 := render_test_ttf.primitives_copyIf A.logo Slot.logo
  have h2 := render_test_ttf.primitives_copyIf A.text_title Slot.text_title
  have h3 := render_test_ttf.primitives_copyIf A.text_subtitle Slot.text_subtitle
  have h4 := render_test_ttf.primitives_copyLabels A.text_label 0
  simp only [primitives] at h1 h2 h3 h4
  simp only [render_test_ttf.drawStatic, primitives, List.filterMap_append, h1, h2, h3, h4]
  have e1 : List.filterMap primitive render_test_ttf.drawBars
      = [Shape.bar_bg 0, Shape.bar_fg 0, Shape.bar_bg 0,
         Shape.bar_bg 1, Shape.bar_fg 1, Shape.bar_bg 1,
         Shape.bar_bg 2, Shape.bar_fg 2, Shape.bar_bg 2] := by decide
  have e2 : List.filterMap primitive render_test_ttf.drawButtons
      = [Shape.btn 0, Shape.btn 0, Shape.btn 1, Shape.btn 1,
         Shape.btn 2, Shape.btn 2, Shape.btn 3, Shape.btn 3] := by decide
  rw [e1, e2]
  rfl

theorem observe_fpsUpdate (c : Call) (h : isFpsUpdateCall c = true) :
    copySlot c = none ∧ primitive c = none := by
  cases c <;> first | exact ⟨rfl, rfl⟩ | exact absurd h (by simp [isFpsUpdateCall])

theorem render_test_ttf.text_fps_frame (A : render_test_ttf.Assets) (fe : FrameEnv)
    (st : render_test_ttf.LoopState) :
    (render_test_ttf.frameBody A fe st).1.text_fps
      = if 10 ≤ st.fps_update_counter + 1 ∧ A.font_small = true then
          (if fe.fpsSurf = true then (if fe.fpsTex = true then some (st.next + 1) else none)
           else st.text_fps)
        else st.text_fps := by
  simp only [render_test_ttf.frameBody, render_test_ttf.updateFps]
  by_cases hb : (decide (10 ≤ st.fps_update_counter + 1) && A.font_small) = true
  · rw [if_pos ((render_test_ttf.updateFps_cond _ _).1 hb)]
    simp only [hb, if_true]
    cases fe.fpsSurf <;> cases fe.fpsTex <;> rfl
  · rw [if_neg (fun h => hb ((render_test_ttf.updateFps_cond _ _).2 h))]
    simp only [hb]
    rfl

theorem render_test_ttf.observe_frame (A : render_test_ttf.Assets) (fe : FrameEnv)
    (st : render_test_ttf.LoopState) :
    primitives (render_test_ttf.frameBody A fe st).2 = allPrimitives
    ∧ copySlots (render_test_ttf.frameBody A fe st).2
        = copySlots (render_test_ttf.drawStatic A)
          ++ (if (render_test_ttf.frameBody A fe st).1.text_fps.isSome then [Slot.text_fps]
              else []) := by
  have hu := render_test_ttf.updateFps_calls A.font_small fe st
  have e1 : List.filterMap copySlot (render_test_ttf.updateFps A.font_small fe st).2 = [] :=
    filterMap_eq_nil_of_forall _ _ fun c hc => (observe_fpsUpdate c (hu c hc)).1
  have e2 : List.filterMap primitive (render_test_ttf.updateFps A.font_small fe st).2 = [] :=
    filterMap_eq_nil_of_forall _ _ fun c hc => (observe_fpsUpdate c (hu c hc)).2
  have e3 := render_test_ttf.primitives_drawStatic A
  have e4 := render_test_ttf.primitives_copyIf
    (render_test_ttf.updateFps A.font_small fe st).1.text_fps Slot.text_fps
  have e5 := render_test_ttf.copySlots_copyIf
    (render_test_ttf.updateFps A.font_small fe st).1.text_fps Slot.text_fps
  simp only [primitives, copySlots] at e3 e4 e5 ⊢
  simp only [render_test_ttf.frameBody, List.filterMap_append, e1, e2, e3, e4, e5]
  simp [primitive, copySlot]

/-- The per-frame facts the loop maintains about the fps label. -/
theorem render_test_ttf.frames_observed (env : render_test_ttf.Env)
    (A : render_test_ttf.Assets) (fuel : Nat) (st0 : render_test_ttf.LoopState)
    (h0 : st0.fps_update_counter = 0) (h1 : st0.text_fps = none) :
    ∀ n f, (render_test_ttf.loop env A fuel 0 st0).1[n]? = some f →
      primitives f = allPrimitives
      ∧ ∃ b : Bool,
          copySlots f = copySlots (render_test_ttf.drawStatic A)
            ++ (if b then [Slot.text_fps] else [])
          ∧ (b = true → A.font_small = true ∧ 10 ≤ n + 1)
          ∧ ((∀ k, (env.frame k).fpsSurf = true ∧ (env.frame k).fpsTex = true) →
              A.font_small = true → 10 ≤ n + 1 → b = true) := by
  intro n f hf
  have key := render_test_ttf.loop_inv env A
    (fun k st => (st.text_fps.isSome = true → A.font_small = true ∧ 10 ≤ k)
      ∧ st.fps_update_counter ≤ k
      ∧ ((∀ k, (env.frame k).fpsSurf = true ∧ (env.frame k).fpsTex = true) →
          A.font_small = true →
          st.fps_update_counter = k % 10 ∧ (10 ≤ k → st.text_fps.isSome = true)))
    (fun k f => primitives f = allPrimitives
      ∧ ∃ b : Bool,
          copySlots f = copySlots (render_test_ttf.drawStatic A)
            ++ (if b then [Slot.text_fps] else [])
          ∧ (b = true → A.font_small = true ∧ 10 ≤ k + 1)
          ∧ ((∀ k, (env.frame k).fpsSurf = true ∧ (env.frame k).fpsTex = true) →
              A.font_small = true → 10 ≤ k + 1 → b = true))
    (by
      intro k st hst
      dsimp only at hst ⊢
      obtain ⟨hs1, hs2, hs3⟩ := hst
      have hobs := render_test_ttf.observe_frame A (env.frame k) st
      have hP : ((render_test_ttf.frameBody A (env.frame k) st).1.text_fps.isSome = true →
            A.font_small = true ∧ 10 ≤ k + 1)
          ∧ (render_test_ttf.frameBody A (env.frame k) st).1.fps_update_counter ≤ k + 1
          ∧ ((∀ k, (env.frame k).fpsSurf = true ∧ (env.frame k).fpsTex = true) →
              A.font_small = true →
              (render_test_ttf.frameBody A (env.frame k) st).1.fps_update_counter
                = (k + 1) % 10
              ∧ (10 ≤ k + 1 →
                  (render_test_ttf.frameBody A (env.frame k) st).1.text_fps.isSome = true)) := by
        rw [render_test_ttf.text_fps_frame, render_test_ttf.counter_frame]
        refine ⟨?_, ?_, ?_⟩
        · intro h
          split at h
          · next hc => exact ⟨hc.2, by omega⟩
          · have := hs1 h
            exact ⟨this.1, by omega⟩
        · split <;> omega
        · intro hok hfs
          obtain ⟨hc, hsome⟩ := hs3 hok hfs
          have hk := hok k
          simp only [hfs, and_true, hk.1, hk.2, if_true, hc]
          by_cases h9 : 10 ≤ k % 10 + 1
          · simp only [h9, if_true, Option.isSome_some, implies_true, and_true]
            omega
          · simp only [h9, if_false]
            refine ⟨by omega, fun h10 => hsome (by omega)⟩
      refine ⟨hP, hobs.1, (render_test_ttf.frameBody A (env.frame k) st).1.text_fps.isSome,
        hobs.2, hP.1, ?_⟩
      intro hok hfs h10
      exact (hP.2.2 hok hfs).2 h10)
    fuel 0 st0 (by simp [h0, h1])
  have := key.2 n f hf
  simpa using this


/-! ### The assets at loop entry -/

theorem render_test_ttf.logo_isSome (env : render_test_ttf.Env) :
    (render_test_ttf.assets env).logo.isSome = render_test_ttf.logoLoads env := by
  have h := render_test_ttf.loadLogo_spec env render_test_ttf.logo_paths 0
  simp only [render_test_ttf.assets, render_test_ttf.logoStep, render_test_ttf.logoLoads]
  cases hf : render_test_ttf.logo_paths.find? fun p => env.imgLoad p && env.logoTex p with
  | none =>
    rw [h.2.1 hf]
    have := List.find?_eq_none.1 hf
    symm
    simpa using this
  | some p =>
    obtain ⟨s, t, hv, _⟩ := h.2.2 p hf
    rw [hv]
    have hp := List.find?_some hf
    have hm := List.mem_of_find?_eq_some hf
    symm
    simp only [Option.isSome_some, List.any_eq_true]
    exact ⟨p, hm, hp⟩

theorem render_test_ttf.title_isSome (env : render_test_ttf.Env) :
    ((render_test_ttf.assets env).text_title.isSome = true → env.fontLarge = true)
    ∧ (env.titleSurf = true → env.titleTex = true →
        (render_test_ttf.assets env).text_title.isSome = env.fontLarge) := by
  simp only [render_test_ttf.assets, render_test_ttf.titleStep]
  cases env.fontLarge <;> cases env.titleSurf <;> cases env.titleTex <;>
    simp [render_test_ttf.renderText]

theorem render_test_ttf.subtitle_isSome (env : render_test_ttf.Env) :
    ((render_test_ttf.assets env).text_subtitle.isSome = true → env.fontMedium = true)
    ∧ (env.subtitleSurf = true → env.subtitleTex = true →
        (render_test_ttf.assets env).text_subtitle.isSome = env.fontMedium) := by
  simp only [render_test_ttf.assets, render_test_ttf.subtitleStep]
  cases env.fontMedium <;> cases env.subtitleSurf <;> cases env.subtitleTex <;>
    simp [render_test_ttf.renderText]

theorem render_test_ttf.renderLabels_length (env : render_test_ttf.Env) :
    ∀ is n, (render_test_ttf.renderLabels env is n).val.length = is.length := by
  intro is
  induction is with
  | nil => intro n; rfl
  | cons i is ih => intro n; simp [render_test_ttf.renderLabels, ih]

theorem render_test_ttf.renderLabels_all (env : render_test_ttf.Env)
    (h : ∀ i, env.labelSurf i = true ∧ env.labelTex i = true) :
    ∀ is n, ∀ t ∈ (render_test_ttf.renderLabels env is n).val, Option.isSome t = true := by
  intro is
  induction is with
  | nil => intro n t ht; simp [render_test_ttf.renderLabels] at ht
  | cons i is ih =>
    intro n t ht
    simp only [render_test_ttf.renderLabels, List.mem_cons] at ht
    rcases ht with rfl | ht
    · simp [render_test_ttf.renderText, (h i).1, (h i).2]
    · exact ih _ t ht

theorem render_test_ttf.label_length (env : render_test_ttf.Env) :
    (render_test_ttf.assets env).text_label.length = 10 := by
  simp only [render_test_ttf.assets, render_test_ttf.labelStep]
  split
  · rw [render_test_ttf.renderLabels_length]
    rfl
  · rfl

theorem render_test_ttf.labels_drawn (env : render_test_ttf.Env) :
    (∀ s ∈ copySlots (render_test_ttf.copyLabels (render_test_ttf.assets env).text_label 0),
        env.fontMedium = true ∧ ∃ j, s = Slot.text_label j ∧ j < 10)
    ∧ ((∀ i, env.labelSurf i = true ∧ env.labelTex i = true) →
        copySlots (render_test_ttf.copyLabels (render_test_ttf.assets env).text_label 0)
          = if env.fontMedium then (List.range 10).map Slot.text_label else []) := by
  have hnil : env.fontMedium = false →
      render_test_ttf.copyLabels (render_test_ttf.assets env).text_label 0 = [] := by
    intro hm
    simp only [render_test_ttf.assets, render_test_ttf.labelStep, hm, Bool.false_eq_true,
      if_false]
    exact render_test_ttf.copyLabels_none 10 0
  refine ⟨?_, ?_⟩
  · intro s hs
    refine ⟨?_, ?_⟩
    · cases hm : env.fontMedium with
      | true => rfl
      | false =>
        rw [hnil hm] at hs
        simp [copySlots] at hs
    · obtain ⟨j, h1, _, h3⟩ := render_test_ttf.mem_copySlots_copyLabels _ _ s hs
      rw [render_test_ttf.label_length] at h3
      exact ⟨j, h1, by omega⟩
  · intro hok
    cases hm : env.fontMedium with
    | false =>
      rw [hnil hm]
      rfl
    | true =>
      rw [render_test_ttf.copySlots_copyLabels_all _ _ (by
        simp only [render_test_ttf.assets, render_test_ttf.labelStep, hm, if_true]
        exact render_test_ttf.renderLabels_all env hok _ _)]
      rw [render_test_ttf.label_length, List.range_eq_range']
      rfl

theorem mem_ite_singleton (c : Bool) (s d : Slot) :
    s ∈ (if c = true then [d] else []) ↔ c = true ∧ s = d := by
  cases c <;> simp

/-- C5 (counterexample): with every font and the logo loaded and every text
rendered, the first frame does not blit the fps label although the small
font is there; and with every font loaded but the title text failing to
render, no frame blits the title although the large font is there. -/
theorem first_frame_has_no_fps_label :
    ¬ (∀ f ∈ (render_test_ttf.main ttfTwoFrames 3).frames,
        (Slot.text_fps ∈ copySlots f ↔ ttfTwoFrames.fontSmall = true))
    ∧ ¬ (∀ f ∈ (render_test_ttf.main ttfTitleRenderFails 3).frames,
        (Slot.text_title ∈ copySlots f ↔ ttfTitleRenderFails.fontLarge = true)) := by
  exact ⟨by decide, by decide⟩

/-- A frame of a run past the bootstrap blits the logo exactly when the
variable `logo` is non-null. -/
theorem render_test_ttf.logo_mem_frame (env : render_test_ttf.Env) (fuel n : Nat)
    (f : List Call)
    (hf : (render_test_ttf.loop env (render_test_ttf.assets env) fuel 0
      (render_test_ttf.initState env)).1[n]? = some f) :
    Slot.logo ∈ copySlots f ↔ (render_test_ttf.assets env).logo.isSome = true := by
  obtain ⟨_, b, hcopy, _, _⟩ :=
    render_test_ttf.frames_observed env (render_test_ttf.assets env) fuel
      (render_test_ttf.initState env) rfl rfl n f hf
  have hlab := render_test_ttf.labels_drawn env
  rw [hcopy, render_test_ttf.copySlots_drawStatic]
  simp only [List.mem_append, mem_ite_singleton, or_assoc]
  constructor
  · rintro (h | h | h | h | h)
    · exact h.1
    · exact absurd h.2 (by simp)
    · exact absurd h.2 (by simp)
    · obtain ⟨_, j, hj, _⟩ := hlab.1 _ h
      exact absurd hj (by simp)
    · exact absurd h.2 (by simp)
  · intro h
    exact Or.inl ⟨h, trivial⟩

/-- C5 (amended): in `render_test_ttf` past the bootstrap, whichever fonts
and logo paths fail to load, the program returns 0 once the time budget is
seen elapsed, and every frame draws all primitive shapes, the logo exactly
when a logo loaded, and no text whose font is missing; the fps label is
never blitted before the 10th frame.  When every text rendering succeeds a
frame blits exactly: the logo iff one loaded, the title iff the large font
loaded, the subtitle and the ten labels iff the medium font loaded, and the
fps label iff the small font loaded and the frame is the 10th or later. -/
theorem missing_resource_skips_only_its_elements (env : render_test_ttf.Env)
    (hinit : render_test_ttf.initOk env = true) :
    (∀ K, 20000 ≤ elapsed (env.frame K).ticksCond env.startTicks →
        ∀ fuel, K + 1 ≤ fuel → (render_test_ttf.main env fuel).exit = some 0)
    ∧ ∀ fuel n f, (render_test_ttf.main env fuel).frames[n]? = some f →
        primitives f = allPrimitives
        ∧ (Slot.logo ∈ copySlots f ↔ render_test_ttf.logoLoads env = true)
        ∧ (Slot.text_title ∈ copySlots f → env.fontLarge = true)
        ∧ (Slot.text_subtitle ∈ copySlots f → env.fontMedium = true)
        ∧ (∀ i, Slot.text_label i ∈ copySlots f → env.fontMedium = true ∧ i < 10)
        ∧ (Slot.text_fps ∈ copySlots f → env.fontSmall = true ∧ 10 ≤ n + 1)
        ∧ (render_test_ttf.TextOk env →
            copySlots f = render_test_ttf.expectedSlots env n) := by
  refine ⟨?_, ?_⟩
  · intro K hK fuel hf
    rw [render_test_ttf.main_of_ok env hinit]
    simp [render_test_ttf.loop_clock env _ K hK fuel 0 _ (Nat.zero_le K) (by omega)]
  · intro fuel n f hf
    rw [render_test_ttf.main_of_ok env hinit] at hf
    obtain ⟨hprim, b, hcopy, hb1, hb2⟩ :=
      render_test_ttf.frames_observed env (render_test_ttf.assets env) fuel
        (render_test_ttf.initState env) rfl rfl n f hf
    have hlab := render_test_ttf.labels_drawn env
    have hmem : ∀ s, s ∈ copySlots f ↔
        ((render_test_ttf.assets env).logo.isSome = true ∧ s = Slot.logo)
        ∨ ((render_test_ttf.assets env).text_title.isSome = true ∧ s = Slot.text_title)
        ∨ ((render_test_ttf.assets env).text_subtitle.isSome = true
            ∧ s = Slot.text_subtitle)
        ∨ s ∈ copySlots (render_test_ttf.copyLabels
            (render_test_ttf.assets env).text_label 0)
        ∨ (b = true ∧ s = Slot.text_fps) := by
      intro s
      rw [hcopy, render_test_ttf.copySlots_drawStatic]
      simp only [List.mem_append, mem_ite_singleton, or_assoc]
    have hsmall : (render_test_ttf.assets env).font_small = env.fontSmall := rfl
    refine ⟨hprim, ?_, ?_, ?_, ?_, ?_, ?_⟩
    · rw [← render_test_ttf.logo_isSome]
      exact render_test_ttf.logo_mem_frame env fuel n f hf
    · rw [hmem]
      rintro (h | h | h | h | h)
      · exact absurd h.2 (by simp)
      · exact (render_test_ttf.title_isSome env).1 h.1
      · exact absurd h.2 (by simp)
      · obtain ⟨_, j, hj, _⟩ := hlab.1 _ h
        exact absurd hj (by simp)
      · exact absurd h.2 (by simp)
    · rw [hmem]
      rintro (h | h | h | h | h)
      · exact absurd h.2 (by simp)
      · exact absurd h.2 (by simp)
      · exact (render_test_ttf.subtitle_isSome env).1 h.1
      · obtain ⟨_, j, hj, _⟩ := hlab.1 _ h
        exact absurd hj (by simp)
      · exact absurd h.2 (by simp)
    · intro i
      rw [hmem]
      rintro (h | h | h | h | h)
      · exact absurd h.2 (by simp)
      · exact absurd h.2 (by simp)
      · exact absurd h.2 (by simp)
      · obtain ⟨hm, j, hj, hlt⟩ := hlab.1 _ h
        simp only [Slot.text_label.injEq] at hj
        subst hj
        exact ⟨hm, hlt⟩
      · exact absurd h.2 (by simp)
    · rw [hmem]
      rintro (h | h | h | h | h)
      · exact absurd h.2 (by simp)
      · exact absurd h.2 (by simp)
      · exact absurd h.2 (by simp)
      · obtain ⟨_, j, hj, _⟩ := hlab.1 _ h
        exact absurd hj (by simp)
      · exact hb1 h.1
    · rintro ⟨ht1, ht2, hs1, hs2, hl, hfps⟩
      rw [hcopy, render_test_ttf.copySlots_drawStatic, hlab.2 hl,
        render_test_ttf.logo_isSome, (render_test_ttf.title_isSome env).2 ht1 ht2,
        (render_test_ttf.subtitle_isSome env).2 hs1 hs2]
      have hbeq : b = (env.fontSmall && decide (10 ≤ n + 1)) := by
        cases hbv : b with
        | true =>
          have := hb1 hbv
          rw [hsmall] at this
          simp [this.1, this.2]
        | false =>
          cases hfs : env.fontSmall with
          | false => rfl
          | true =>
            by_cases h10 : 10 ≤ n + 1
            · have := hb2 hfps hfs h10
              rw [hbv] at this
              exact absurd this (by simp)
            · simp [h10]
      rw [hbeq]
      simp only [render_test_ttf.expectedSlots]
      cases env.fontMedium <;> simp

/-- C5 (witness): the medium font and the first logo path are missing.  The
run returns 0; its 11th frame (index 10) draws every primitive shape and
blits the logo (from the second path), the title and the fps label, and
neither the subtitle nor any label; its first frame (index 0) blits the
logo and the title only. -/
theorem missing_resource_skips_only_its_elements_witness :
    (render_test_ttf.main ttfMediumFontAndFirstLogoMissing 12).exit = some 0
    ∧ primitives ((render_test_ttf.main ttfMediumFontAndFirstLogoMissing 12).frames.getD 10 [])
        = allPrimitives
    ∧ copySlots ((render_test_ttf.main ttfMediumFontAndFirstLogoMissing 12).frames.getD 10 [])
        = [Slot.logo, Slot.text_title, Slot.text_fps]
    ∧ Slot.text_subtitle ∉
        copySlots ((render_test_ttf.main ttfMediumFontAndFirstLogoMissing 12).frames.getD 10 [])
    ∧ copySlots ((render_test_ttf.main ttfMediumFontAndFirstLogoMissing 12).frames.getD 0 [])
        = [Slot.logo, Slot.text_title] :=
  ⟨(missing_resource_skips_only_its_elements ttfMediumFontAndFirstLogoMissing
      (by decide)).1 11 (by decide) 12 (by decide),
   ((missing_resource_skips_only_its_elements ttfMediumFontAndFirstLogoMissing
      (by decide)).2 12 10 _ (by decide!)).1,
   (((missing_resource_skips_only_its_elements ttfMediumFontAndFirstLogoMissing
      (by decide)).2 12 10 _ (by decide!)).2.2.2.2.2.2
      ⟨rfl, rfl, rfl, rfl, fun _ => ⟨rfl, rfl⟩, fun k => by
        simp only [ttfMediumFontAndFirstLogoMissing, ttfAllOk]
        split <;> exact ⟨rfl, rfl⟩⟩).trans (by decide),
   fun h => absurd (((missing_resource_skips_only_its_elements
      ttfMediumFontAndFirstLogoMissing (by decide)).2 12 10 _ (by decide!)).2.2.2.1 h)
      (by decide),
   (((missing_resource_skips_only_its_elements ttfMediumFontAndFirstLogoMissing
      (by decide)).2 12 0 _ (by decide!)).2.2.2.2.2.2
      ⟨rfl, rfl, rfl, rfl, fun _ => ⟨rfl, rfl⟩, fun k => by
        simp only [ttfMediumFontAndFirstLogoMissing, ttfAllOk]
        split <;> exact ⟨rfl, rfl⟩⟩).trans (by decide)⟩

theorem pairwise_zeros_append (Z C : List Nat) (hZ : ∀ z ∈ Z, z = 0)
    (hC : C.Pairwise (· ≤ ·)) : (Z ++ C).Pairwise (· ≤ ·) := by
  rw [List.pairwise_append]
  refine ⟨List.pairwise_of_forall_mem_list ?_, hC, ?_⟩
  · intro a ha b _
    rw [hZ a ha]
    exact Nat.zero_le b
  · intro a ha b _
    rw [hZ a ha]
    exact Nat.zero_le b

theorem filterMap_rank_zero (l : List Call)
    (h : ∀ c ∈ l, releaseRank c = none ∨ releaseRank c = some 0) :
    ∀ z ∈ l.filterMap releaseRank, z = 0 := by
  intro z hz
  obtain ⟨c, hc, hr⟩ := List.mem_filterMap.1 hz
  rcases h c hc with h | h
  · rw [h] at hr
    exact absurd hr (by simp)
  · rw [h] at hr
    exact (Option.some.inj hr).symm

theorem releaseRank_of_setup (c : Call) (h : isSetupCall c = true) : releaseRank c = none := by
  cases c <;> first | rfl | exact absurd h (by simp [isSetupCall])

theorem releaseRank_of_draw (c : Call) (h : isDrawCall c = true) : releaseRank c = none := by
  cases c <;> first | rfl | exact absurd h (by simp [isDrawCall])

theorem releaseRank_of_fpsUpdate (c : Call) (h : isFpsUpdateCall c = true) :
    releaseRank c = none ∨ releaseRank c = some 0 := by
  cases c <;> first
    | exact Or.inl rfl
    | exact Or.inr rfl
    | exact absurd h (by simp [isFpsUpdateCall])

theorem releaseRank_of_asset (c : Call) (h : isAssetRelease c = true) :
    releaseRank c = none ∨ releaseRank c = some 0 := by
  cases c <;> first | exact Or.inr rfl | exact absurd h (by simp [isAssetRelease])

theorem core_of_load (c : Call) (h : isLoadCall c = true) :
    (acquires c).filter isCore = none ∧ (releases c).filter isCore = none := by
  cases c with
  | TTF_OpenFont f n r => cases r <;> exact ⟨rfl, rfl⟩
  | IMG_Load p r => cases r <;> exact ⟨rfl, rfl⟩
  | TTF_RenderText_Blended f d r => cases r <;> exact ⟨rfl, rfl⟩
  | SDL_CreateTextureFromSurface d s r => cases r <;> exact ⟨rfl, rfl⟩
  | SDL_FreeSurface s => exact ⟨rfl, rfl⟩
  | _ => exact absurd h (by simp [isLoadCall])

theorem core_of_frame (c : Call) (h : isDrawCall c = true ∨ isFpsUpdateCall c = true) :
    (acquires c).filter isCore = none ∧ (releases c).filter isCore = none := by
  cases c with
  | TTF_RenderText_Blended f d r => cases r <;> exact ⟨rfl, rfl⟩
  | SDL_CreateTextureFromSurface d s r => cases r <;> exact ⟨rfl, rfl⟩
  | SDL_FreeSurface s => exact ⟨rfl, rfl⟩
  | SDL_DestroyTexture s => exact ⟨rfl, rfl⟩
  | SDL_SetRenderDrawColor r g b a => exact ⟨rfl, rfl⟩
  | SDL_RenderClear => exact ⟨rfl, rfl⟩
  | SDL_RenderFillRect s => exact ⟨rfl, rfl⟩
  | SDL_RenderDrawRect s => exact ⟨rfl, rfl⟩
  | SDL_RenderDrawLine a b c d => exact ⟨rfl, rfl⟩
  | SDL_RenderDrawPoint a => exact ⟨rfl, rfl⟩
  | SDL_RenderCopy a b => exact ⟨rfl, rfl⟩
  | SDL_RenderPresent => exact ⟨rfl, rfl⟩
  | SDL_Delay a => exact ⟨rfl, rfl⟩
  | _ => rcases h with h | h <;> exact absurd h (by simp [isDrawCall, isFpsUpdateCall])

theorem core_of_asset (c : Call) (h : isAssetRelease c = true) :
    (acquires c).filter isCore = none ∧ (releases c).filter isCore = none := by
  cases c <;> first | exact ⟨rfl, rfl⟩ | exact absurd h (by simp [isAssetRelease])

theorem coreAcquired_eq (t : List Call) :
    coreAcquired t = t.filterMap fun c => (acquires c).filter isCore := by
  rw [coreAcquired, List.filter_filterMap]

theorem coreReleased_eq (t : List Call) :
    coreReleased t = t.filterMap fun c => (releases c).filter isCore := by
  rw [coreReleased, List.filter_filterMap]

theorem coreAcquired_append (a b : List Call) :
    coreAcquired (a ++ b) = coreAcquired a ++ coreAcquired b := by
  simp [coreAcquired]

theorem coreReleased_append (a b : List Call) :
    coreReleased (a ++ b) = coreReleased a ++ coreReleased b := by
  simp [coreReleased]

theorem core_nil_of_forall (l : List Call)
    (h : ∀ c ∈ l, (acquires c).filter isCore = none ∧ (releases c).filter isCore = none) :
    coreAcquired l = [] ∧ coreReleased l = [] := by
  rw [coreAcquired_eq, coreReleased_eq]
  exact ⟨filterMap_eq_nil_of_forall _ _ fun c hc => (h c hc).1,
    filterMap_eq_nil_of_forall _ _ fun c hc => (h c hc).2⟩


theorem render_test.loop_frames (env : render_test.Env) :
    ∀ fuel k st, ∀ f ∈ (render_test.loop env fuel k st).1, f = render_test.drawFrame := by
  intro fuel
  induction fuel with
  | zero => intro k st f hf; simp [render_test.loop] at hf
  | succ fuel ih =>
    intro k st f hf
    simp only [render_test.loop] at hf
    split at hf
    · simp only [List.mem_cons] at hf
      rcases hf with rfl | hf
      · rfl
      · exact ih _ _ f hf
    · simp at hf

theorem render_test.drawFrame_draw : ∀ c ∈ render_test.drawFrame, isDrawCall c = true := by
  intro c hc
  simp only [render_test.drawFrame, render_test.drawLines, render_test.drawCircle,
    List.mem_append, List.mem_map] at hc
  rcases hc with (((hc | ⟨i, _, rfl⟩) | hc) | ⟨i, _, rfl⟩) | hc
  · revert c; decide
  · rfl
  · revert c; decide
  · rfl
  · revert c; decide

theorem render_test.frames_draw_rt (env : render_test.Env) (fuel : Nat) :
    ∀ c ∈ (render_test.main env fuel).frames.flatten, isDrawCall c = true := by
  intro c hc
  obtain ⟨f, hf, hcf⟩ := List.mem_flatten.1 hc
  cases h : render_test.initOk env with
  | false =>
    rw [(render_test.exit_of_not_ok_rt env h fuel).2] at hf
    simp at hf
  | true =>
    rw [render_test.main_of_ok_rt env h] at hf
    rw [render_test.loop_frames env fuel 0 _ f hf] at hcf
    exact render_test.drawFrame_draw c hcf

theorem core_of_draw (l : List Call) (h : ∀ c ∈ l, isDrawCall c = true) :
    coreAcquired l = [] ∧ coreReleased l = [] :=
  core_nil_of_forall l fun c hc => core_of_frame c (Or.inl (h c hc))

theorem rank_nil_of_draw (l : List Call) (h : ∀ c ∈ l, isDrawCall c = true) :
    l.filterMap releaseRank = [] :=
  filterMap_eq_nil_of_forall _ _ fun c hc => releaseRank_of_draw c (h c hc)

theorem render_test_ttf.core_frames (env : render_test_ttf.Env) (fuel : Nat) :
    coreAcquired (render_test_ttf.main env fuel).frames.flatten = []
    ∧ coreReleased (render_test_ttf.main env fuel).frames.flatten = [] :=
  core_nil_of_forall _ fun c hc => core_of_frame c (render_test_ttf.frames_calls env fuel c hc)

theorem render_test_ttf.rank_frames (env : render_test_ttf.Env) (fuel : Nat) :
    ∀ z ∈ (render_test_ttf.main env fuel).frames.flatten.filterMap releaseRank, z = 0 :=
  filterMap_rank_zero _ fun c hc => by
    rcases render_test_ttf.frames_calls env fuel c hc with h | h
    · exact Or.inl (releaseRank_of_draw c h)
    · exact releaseRank_of_fpsUpdate c h

theorem render_test_ttf.core_pre (env : render_test_ttf.Env) :
    coreAcquired (render_test_ttf.initCalls ++ render_test_ttf.openFonts env
        ++ (render_test_ttf.logoStep env).calls ++ (render_test_ttf.titleStep env).calls
        ++ (render_test_ttf.subtitleStep env).calls ++ (render_test_ttf.labelStep env).calls)
      = [Res.sdl, Res.ttf, Res.img, Res.window, Res.renderer]
    ∧ coreReleased (render_test_ttf.initCalls ++ render_test_ttf.openFonts env
        ++ (render_test_ttf.logoStep env).calls ++ (render_test_ttf.titleStep env).calls
        ++ (render_test_ttf.subtitleStep env).calls ++ (render_test_ttf.labelStep env).calls)
      = [] := by
  have h1 := core_nil_of_forall _ fun c hc =>
    core_of_load c (render_test_ttf.openFonts_load env c hc)
  have h2 := core_nil_of_forall _ fun c hc =>
    core_of_load c (render_test_ttf.logoStep_load env c hc)
  have h3 := core_nil_of_forall _ fun c hc =>
    core_of_load c (render_test_ttf.titleStep_load env c hc)
  have h4 := core_nil_of_forall _ fun c hc =>
    core_of_load c (render_test_ttf.subtitleStep_load env c hc)
  have h5 := core_nil_of_forall _ fun c hc =>
    core_of_load c (render_test_ttf.labelStep_load env c hc)
  simp only [coreAcquired_append, coreReleased_append, h1.1, h1.2, h2.1, h2.2, h3.1, h3.2,
    h4.1, h4.2, h5.1, h5.2, List.append_nil]
  exact ⟨rfl, rfl⟩

/-- C7: in `test_kms`, `render_test` and `render_test_ttf`, on every path,
the release calls come in teardown order (every texture and font release
before `SDL_DestroyRenderer`, that before `SDL_DestroyWindow`, that before
`IMG_Quit`, `TTF_Quit`, `SDL_Quit` in this order), and when `main` returns
the subsystems, window and renderer have been released in exactly the
reverse of the order in which they were acquired. -/
theorem releases_in_reverse_order (ek : test_kms.Env) (er : render_test.Env)
    (et : render_test_ttf.Env) (fuel : Nat) :
    (((test_kms.main ek).trace.filterMap releaseRank).Pairwise (· ≤ ·)
      ∧ coreReleased (test_kms.main ek).trace
          = (coreAcquired (test_kms.main ek).trace).reverse)
    ∧ (((render_test.main er fuel).trace.filterMap releaseRank).Pairwise (· ≤ ·)
      ∧ ((render_test.main er fuel).exit ≠ none →
          coreReleased (render_test.main er fuel).trace
            = (coreAcquired (render_test.main er fuel).trace).reverse))
    ∧ (((render_test_ttf.main et fuel).trace.filterMap releaseRank).Pairwise (· ≤ ·)
      ∧ ((render_test_ttf.main et fuel).exit ≠ none →
          coreReleased (render_test_ttf.main et fuel).trace
            = (coreAcquired (render_test_ttf.main et fuel).trace).reverse)) := by
  refine ⟨?_, ?_, ?_⟩
  · cases h1 : ek.sdlInit <;> cases h2 : ek.window <;>
      simp [test_kms.main, h1, h2, Run.trace, releaseRank, coreReleased, coreAcquired,
        acquires, releases, isCore]
  · have hfr := render_test.frames_draw_rt er fuel
    rw [Run.trace]
    simp only [List.filterMap_append, coreAcquired_append, coreReleased_append,
      rank_nil_of_draw _ hfr, (core_of_draw _ hfr).1, (core_of_draw _ hfr).2, List.append_nil]
    cases h : render_test.initOk er with
    | false =>
      revert h
      cases h1 : er.sdlInit <;> cases h2 : er.window <;> cases h3 : er.renderer <;>
        simp [render_test.main, render_test.initOk, h1, h2, h3, releaseRank, coreReleased,
          coreAcquired, acquires, releases, isCore]
    | true =>
      rw [render_test.main_of_ok_rt er h]
      simp only
      split <;>
        simp [releaseRank, coreReleased, coreAcquired, acquires, releases, isCore]
  · have hfr := render_test_ttf.rank_frames et fuel
    have hcf := render_test_ttf.core_frames et fuel
    have hpre := render_test_ttf.pre_setup et fuel
    rw [Run.trace]
    simp only [List.filterMap_append, coreAcquired_append, coreReleased_append, hcf.1, hcf.2,
      List.append_nil,
      filterMap_eq_nil_of_forall _ _ fun c hc => releaseRank_of_setup c (hpre c hc),
      List.nil_append]
    cases h : render_test_ttf.initOk et with
    | false =>
      rw [(render_test_ttf.exit_of_not_ok et h fuel).2]
      revert h
      cases h1 : et.sdlInit <;> cases h2 : et.ttfInit <;> cases h3 : et.imgInit <;>
        cases h4 : et.window <;> cases h5 : et.renderer <;>
        simp [render_test_ttf.main, render_test_ttf.initOk, h1, h2, h3, h4, h5, releaseRank,
          coreReleased, coreAcquired, acquires, releases, isCore]
    | true =>
      rw [render_test_ttf.main_of_ok et h] at hfr ⊢
      simp only at hfr ⊢
      rw [(render_test_ttf.core_pre et).1, (render_test_ttf.core_pre et).2]
      split
      · obtain ⟨X, hX, he⟩ := render_test_ttf.cleanup_split (render_test_ttf.assets et)
          (render_test_ttf.loop et (render_test_ttf.assets et) fuel 0
            (render_test_ttf.initState et)).2.1.text_fps
        rw [he]
        have hXc := core_nil_of_forall X fun c hc => core_of_asset c (hX c hc)
        simp only [List.filterMap_append, coreReleased_append, coreAcquired_append, hXc.1,
          hXc.2, List.nil_append]
        refine ⟨?_, fun _ => rfl⟩
        rw [← List.append_assoc]
        refine pairwise_zeros_append _ _ ?_ (by decide)
        intro z hz
        rcases List.mem_append.1 hz with hz | hz
        · exact hfr z hz
        · exact filterMap_rank_zero X (fun c hc => releaseRank_of_asset c (hX c hc)) z hz
      · simp only [List.filterMap_nil, List.append_nil]
        refine ⟨?_, fun h => absurd rfl h⟩
        exact List.pairwise_of_forall_mem_list fun a ha b _ => by
          rw [hfr a ha]
          exact Nat.zero_le b

/-- C7 (witness): runs of the two looping programs that return. -/
theorem releases_in_reverse_order_witness :
    coreReleased (render_test.main renderTwoFrames 3).trace
        = (coreAcquired (render_test.main renderTwoFrames 3).trace).reverse
    ∧ coreReleased (render_test_ttf.main ttfTwoFrames 3).trace
        = (coreAcquired (render_test_ttf.main ttfTwoFrames 3).trace).reverse :=
  ⟨(releases_in_reverse_order { sdlInit := true, window := true } renderTwoFrames
      ttfTwoFrames 3).2.1.2 (by decide),
   (releases_in_reverse_order { sdlInit := true, window := true } renderTwoFrames
      ttfTwoFrames 3).2.2.2 (by decide)⟩


/-! ### Properties along a call sequence -/

theorem along_nil {σ : Type} (P : σ → Prop) (step : σ → Call → σ) (s : σ) (h : P s) :
    Along P step s [] := by
  intro n
  simpa using h

theorem along_cons {σ : Type} (P : σ → Prop) (step : σ → Call → σ) (s : σ) (c : Call)
    (l : List Call) (h : P s) (hl : Along P step (step s c) l) :
    Along P step s (c :: l) := by
  intro n
  cases n with
  | zero => simpa using h
  | succ n => simpa using hl n

theorem along_append {σ : Type} (P : σ → Prop) (step : σ → Call → σ) (s : σ)
    (a b : List Call) (ha : Along P step s a) (hb : Along P step (a.foldl step s) b) :
    Along P step s (a ++ b) := by
  intro n
  rw [List.take_append_eq_append_take, List.foldl_append]
  by_cases h : n ≤ a.length
  · have : n - a.length = 0 := by omega
    rw [this]
    simpa using ha n
  · rw [List.take_of_length_le (by omega)]
    exact hb _

theorem foldl_const {σ : Type} (step : σ → Call → σ) (l : List Call)
    (h : ∀ c ∈ l, ∀ s, step s c = s) (s : σ) : l.foldl step s = s := by
  induction l with
  | nil => rfl
  | cons c l ih =>
    rw [List.foldl_cons, h c (List.mem_cons_self c l) s]
    exact ih fun d hd => h d (List.mem_cons_of_mem c hd)

theorem along_const {σ : Type} (P : σ → Prop) (step : σ → Call → σ) (l : List Call)
    (h : ∀ c ∈ l, ∀ s, step s c = s) (s : σ) (hs : P s) : Along P step s l := by
  intro n
  rw [foldl_const step (l.take n) (fun c hc => h c (List.mem_of_mem_take hc)) s]
  exact hs

/-- Loop induction for a state folded over the calls: a relation between
the loop variables and the folded state that every iteration preserves holds
at the end, and a property every iteration keeps along its calls holds along
all the frames. -/
theorem render_test_ttf.loop_fold {σ : Type} (env : render_test_ttf.Env)
    (A : render_test_ttf.Assets) (step : σ → Call → σ)
    (I : render_test_ttf.LoopState → σ → Prop) (P : σ → Prop)
    (hP : ∀ st s, I st s → P s)
    (hstep : ∀ k st s, I st s →
      I (render_test_ttf.frameBody A (env.frame k) st).1
        ((render_test_ttf.frameBody A (env.frame k) st).2.foldl step s)
      ∧ Along P step s (render_test_ttf.frameBody A (env.frame k) st).2) :
    ∀ fuel k st s, I st s →
      I (render_test_ttf.loop env A fuel k st).2.1
        ((render_test_ttf.loop env A fuel k st).1.flatten.foldl step s)
      ∧ Along P step s (render_test_ttf.loop env A fuel k st).1.flatten := by
  intro fuel
  induction fuel with
  | zero =>
    intro k st s h
    simp only [render_test_ttf.loop, List.flatten_nil, List.foldl_nil]
    exact ⟨h, along_nil P step s (hP st s h)⟩
  | succ fuel ih =>
    intro k st s h
    simp only [render_test_ttf.loop]
    split
    · have hs := hstep k st s h
      have := ih (k + 1) _ _ hs.1
      simp only [List.flatten_cons, List.foldl_append]
      exact ⟨this.1, along_append P step s _ _ hs.2 this.2⟩
    · simp only [List.flatten_nil, List.foldl_nil]
      exact ⟨h, along_nil P step s (hP st s h)⟩

/-! ### The fps texture -/

theorem fpsStep_of_draw (c : Call) (h : isDrawCall c = true) (F : Multiset Handle) :
    fpsStep F c = F := by
  cases c <;> first | rfl | exact absurd h (by simp [isDrawCall])

theorem fpsStep_of_setup (c : Call) (h : isSetupCall c = true) (F : Multiset Handle) :
    fpsStep F c = F := by
  cases c with
  | SDL_CreateTextureFromSurface d s r =>
    cases d <;> cases r <;> first | rfl | exact absurd h (by simp [isSetupCall])
  | _ => first | rfl | exact absurd h (by simp [isSetupCall])

theorem fpsStep_zero_of_cleanup (c : Call) (h : isCleanupCall c = true) :
    fpsStep 0 c = 0 := by
  cases c <;> first | rfl | exact absurd h (by simp [isCleanupCall])

theorem fps_le_handle (F : Multiset Handle) (t : Option Handle) (h : F ≤ optHandle t) :
    Multiset.card F ≤ 1 := by
  cases t with
  | none =>
    have : F = 0 := by simpa [optHandle] using h
    subst this
    simp
  | some x =>
    have := Multiset.card_le_card h
    simpa [optHandle] using this

theorem fps_destroyIf (F : Multiset Handle) (t : Option Handle) (h : F ≤ optHandle t) :
    (render_test_ttf.destroyIf t).foldl fpsStep F = 0
    ∧ Along (fun F => Multiset.card F ≤ 1) fpsStep F (render_test_ttf.destroyIf t) := by
  have hc := fps_le_handle F t h
  cases t with
  | none =>
    have : F = 0 := by simpa [optHandle] using h
    subst this
    exact ⟨rfl, along_nil _ _ _ hc⟩
  | some x =>
    have h0 : F.erase x = 0 := by
      have := Multiset.erase_le_erase x h
      simpa [optHandle] using this
    refine ⟨h0, along_cons _ _ _ _ _ hc (along_nil _ _ _ ?_)⟩
    show Multiset.card (F.erase x) ≤ 1
    rw [h0]
    simp

theorem fps_renderText (fe : FrameEnv) (old : Option Handle) (n : Nat) :
    (render_test_ttf.renderText FontVar.font_small Slot.text_fps fe.fpsSurf fe.fpsTex
        old n).calls.foldl fpsStep 0
      ≤ optHandle (render_test_ttf.renderText FontVar.font_small Slot.text_fps fe.fpsSurf
          fe.fpsTex old n).val
    ∧ Along (fun F => Multiset.card F ≤ 1) fpsStep 0
        (render_test_ttf.renderText FontVar.font_small Slot.text_fps fe.fpsSurf fe.fpsTex
          old n).calls := by
  cases fe.fpsSurf <;> cases fe.fpsTex <;>
    simp only [render_test_ttf.renderText, if_true, if_false, Bool.false_eq_true,
      List.foldl_cons, List.foldl_nil, fpsStep, optHandle] <;>
    refine ⟨by simp, ?_⟩ <;>
    repeat (first
      | exact along_nil _ _ _ (by simp [fpsStep])
      | refine along_cons _ _ _ _ _ (by simp [fpsStep]) ?_)

theorem render_test_ttf.fps_frame (A : render_test_ttf.Assets) (fe : FrameEnv)
    (st : render_test_ttf.LoopState) (F : Multiset Handle)
    (h : F ≤ optHandle st.text_fps) :
    (render_test_ttf.frameBody A fe st).2.foldl fpsStep F
        ≤ optHandle (render_test_ttf.frameBody A fe st).1.text_fps
    ∧ Along (fun F => Multiset.card F ≤ 1) fpsStep F (render_test_ttf.frameBody A fe st).2 := by
  have hc := fps_le_handle F _ h
  have hd1 := foldl_const fpsStep (render_test_ttf.drawStatic A)
    (fun c hc s => fpsStep_of_draw c (render_test_ttf.drawStatic_draw A c hc) s)
  have ha1 := along_const (fun F => Multiset.card F ≤ 1) fpsStep (render_test_ttf.drawStatic A)
    (fun c hc s => fpsStep_of_draw c (render_test_ttf.drawStatic_draw A c hc) s)
  have hd3 := fun t => foldl_const fpsStep (render_test_ttf.copyIf t Slot.text_fps)
    (fun c hc s => fpsStep_of_draw c (render_test_ttf.copyIf_draw _ _ c hc) s)
  have ha3 := fun t => along_const (fun F => Multiset.card F ≤ 1) fpsStep
    (render_test_ttf.copyIf t Slot.text_fps)
    (fun c hc s => fpsStep_of_draw c (render_test_ttf.copyIf_draw _ _ c hc) s)
  have hu : (render_test_ttf.updateFps A.font_small fe st).2.foldl fpsStep F
        ≤ optHandle (render_test_ttf.updateFps A.font_small fe st).1.text_fps
      ∧ Along (fun F => Multiset.card F ≤ 1) fpsStep F
          (render_test_ttf.updateFps A.font_small fe st).2 := by
    unfold render_test_ttf.updateFps
    by_cases hb : (decide (10 ≤ st.fps_update_counter + 1) && A.font_small) = true
    · simp only [hb, if_true, List.foldl_append]
      have hdes := fps_destroyIf F st.text_fps h
      have hren := fps_renderText fe st.text_fps st.next
      rw [hdes.1]
      exact ⟨hren.1, along_append _ _ _ _ _ hdes.2 (by rw [hdes.1]; exact hren.2)⟩
    · simp only [hb]
      exact ⟨h, along_nil _ _ _ hc⟩
  have hcu := fps_le_handle _ _ hu.1
  simp only [render_test_ttf.frameBody, List.foldl_append, hd1, hd3, List.foldl_cons,
    List.foldl_nil]
  refine ⟨hu.1, ?_⟩
  refine along_append _ _ _ _ _ (along_append _ _ _ _ _ (along_append _ _ _ _ _ (ha1 F hc)
    (by rw [hd1]; exact hu.2)) (by rw [List.foldl_append, hd1]; exact ha3 _ _ hcu)) ?_
  rw [List.foldl_append, List.foldl_append, hd1, hd3]
  exact along_cons _ _ _ _ _ hcu (along_nil _ _ _ hcu)

theorem render_test_ttf.cleanup_eq (A : render_test_ttf.Assets) (t : Option Handle) :
    render_test_ttf.cleanup A t
      = render_test_ttf.destroyIf t ++ render_test_ttf.cleanup A none := by
  simp [render_test_ttf.cleanup, render_test_ttf.destroyIf, List.append_assoc]

/-- C3: in `render_test_ttf`, after every prefix of the calls of any run,
whatever fails and however long the loop runs, at most one texture created
for `text_fps` has not been destroyed; when `main` has returned none is
left. -/
theorem at_most_one_fps_texture (env : render_test_ttf.Env) (fuel : Nat) :
    (∀ n, Multiset.card (fpsLive ((render_test_ttf.main env fuel).trace.take n)) ≤ 1)
    ∧ ((render_test_ttf.main env fuel).exit ≠ none →
        fpsLive (render_test_ttf.main env fuel).trace = 0) := by
  have hpre := render_test_ttf.pre_setup env fuel
  have hpost := render_test_ttf.post_cleanup env fuel
  have hpre0 := foldl_const fpsStep _ (fun c hc s => fpsStep_of_setup c (hpre c hc) s) 0
  have hpreA := along_const (fun F => Multiset.card F ≤ 1) fpsStep _
    (fun c hc s => fpsStep_of_setup c (hpre c hc) s) 0 (by simp)
  have hzero : ∀ l : List Call, (∀ c ∈ l, isCleanupCall c = true) →
      l.foldl fpsStep 0 = 0 ∧ Along (fun F => Multiset.card F ≤ 1) fpsStep 0 l := by
    intro l
    induction l with
    | nil => intro _; exact ⟨rfl, along_nil _ _ _ (by simp)⟩
    | cons c l ih =>
      intro h
      have h0 := fpsStep_zero_of_cleanup c (h c (List.mem_cons_self c l))
      have := ih fun d hd => h d (List.mem_cons_of_mem c hd)
      rw [List.foldl_cons, h0]
      exact ⟨this.1, along_cons _ _ _ _ _ (by simp) (by rw [h0]; exact this.2)⟩
  show Along (fun F => Multiset.card F ≤ 1) fpsStep 0 (render_test_ttf.main env fuel).trace ∧ _
  simp only [fpsLive, Run.trace, List.foldl_append, hpre0]
  cases h : render_test_ttf.initOk env with
  | false =>
    have hz := hzero _ hpost
    rw [(render_test_ttf.exit_of_not_ok env h fuel).2]
    simp only [List.flatten_nil, List.foldl_nil, List.append_nil]
    exact ⟨along_append _ _ _ _ _ hpreA (by rw [hpre0]; exact hz.2), fun _ => hz.1⟩
  | true =>
    have key := render_test_ttf.loop_fold env (render_test_ttf.assets env) fpsStep
      (fun st F => F ≤ optHandle st.text_fps) (fun F => Multiset.card F ≤ 1)
      (fun st F hI => fps_le_handle F _ hI)
      (fun k st F hI => render_test_ttf.fps_frame _ _ st F hI)
      fuel 0 (render_test_ttf.initState env) 0 (by simp [optHandle])
    rw [render_test_ttf.main_of_ok env h] at hpre0 hpreA ⊢
    simp only at hpre0 hpreA ⊢
    have hfin : Along (fun F => Multiset.card F ≤ 1) fpsStep 0
        ((render_test_ttf.initCalls ++ render_test_ttf.openFonts env
          ++ (render_test_ttf.logoStep env).calls ++ (render_test_ttf.titleStep env).calls
          ++ (render_test_ttf.subtitleStep env).calls ++ (render_test_ttf.labelStep env).calls)
         ++ (render_test_ttf.loop env (render_test_ttf.assets env) fuel 0
              (render_test_ttf.initState env)).1.flatten) :=
      along_append _ _ _ _ _ hpreA (by rw [hpre0]; exact key.2)
    split
    · rw [render_test_ttf.cleanup_eq, List.foldl_append]
      have hdes := fps_destroyIf _ _ key.1
      have hz := hzero _ (render_test_ttf.cleanup_cleanup (render_test_ttf.assets env) none)
      rw [hdes.1]
      refine ⟨along_append _ _ _ _ _ hfin ?_, fun _ => hz.1⟩
      rw [List.foldl_append, hpre0]
      exact along_append _ _ _ _ _ hdes.2 (by rw [hdes.1]; exact hz.2)
    · simp only [List.append_nil, List.foldl_nil]
      exact ⟨hfin, fun hne => absurd rfl hne⟩

/-- C3 (witness): a run that returns after two regenerations of the fps
label, the second of which fails to render. -/
theorem at_most_one_fps_texture_witness :
    fpsLive (render_test_ttf.main ttfSecondRenderFails 21).trace = 0 :=
  (at_most_one_fps_texture ttfSecondRenderFails 21).2 (by decide)


/-! ### Live resources -/

theorem liveStep_of_draw (c : Call) (h : isDrawCall c = true) (L : Multiset Res) :
    liveStep L c = L := by
  cases c <;> first | rfl | exact absurd h (by simp [isDrawCall])

theorem live_of_draw (l : List Call) (h : ∀ c ∈ l, isDrawCall c = true) (L : Multiset Res) :
    l.foldl liveStep L = L :=
  foldl_const liveStep l (fun c hc s => liveStep_of_draw c (h c hc) s) L

theorem live_renderText (f : FontVar) (d : Slot) (a b : Bool) (old : Option Handle)
    (n : Nat) (L : Multiset Res) :
    (render_test_ttf.renderText f d a b old n).calls.foldl liveStep L
      = if a && b then Res.texture (n + 1) ::ₘ L else L := by
  cases a <;> cases b <;>
    simp [render_test_ttf.renderText, liveStep, acquires, releases, Multiset.erase_cons_tail]

theorem live_renderText_none (f : FontVar) (d : Slot) (a b : Bool) (n : Nat)
    (L : Multiset Res) :
    (render_test_ttf.renderText f d a b none n).calls.foldl liveStep L
      = optTex (render_test_ttf.renderText f d a b none n).val + L := by
  rw [live_renderText]
  cases a <;> cases b <;> simp [render_test_ttf.renderText, optTex]

theorem live_loadLogo (env : render_test_ttf.Env) :
    ∀ ps n L, (render_test_ttf.loadLogo env ps none n).calls.foldl liveStep L
      = optTex (render_test_ttf.loadLogo env ps none n).val + L := by
  intro ps
  induction ps with
  | nil => intro n L; simp [render_test_ttf.loadLogo, optTex]
  | cons p ps ih =>
    intro n L
    cases h1 : env.imgLoad p with
    | false =>
      simp only [render_test_ttf.loadLogo, h1, Option.isSome_none, Bool.false_eq_true,
        if_false, List.foldl_cons]
      rw [← ih n L]
      rfl
    | true =>
      cases h2 : env.logoTex p with
      | false =>
        simp only [render_test_ttf.loadLogo, h1, h2, Option.isSome_none, Bool.false_eq_true,
          if_false, if_true, List.foldl_cons, List.foldl_append, List.foldl_nil]
        rw [← ih (n + 2) L]
        simp [liveStep, acquires, releases]
      | true =>
        simp [render_test_ttf.loadLogo, h1, h2, render_test_ttf.loadLogo_some, liveStep,
          acquires, releases, optTex, Multiset.erase_cons_tail]

theorem live_renderLabels (env : render_test_ttf.Env) :
    ∀ is n L, (render_test_ttf.renderLabels env is n).calls.foldl liveStep L
      = texsOf (render_test_ttf.renderLabels env is n).val + L := by
  intro is
  induction is with
  | nil => intro n L; simp [render_test_ttf.renderLabels, texsOf]
  | cons i is ih =>
    intro n L
    simp only [render_test_ttf.renderLabels, List.foldl_append, ih, live_renderText_none,
      texsOf]
    rw [add_comm (optTex _) (texsOf _), add_assoc]

/-- The resources live when the loop of `render_test_ttf` is entered. -/
theorem render_test_ttf.live_pre (env : render_test_ttf.Env) :
    (render_test_ttf.initCalls ++ render_test_ttf.openFonts env
        ++ (render_test_ttf.logoStep env).calls ++ (render_test_ttf.titleStep env).calls
        ++ (render_test_ttf.subtitleStep env).calls
        ++ (render_test_ttf.labelStep env).calls).foldl liveStep 0
      = texsOf (render_test_ttf.assets env).text_label
        + (optTex (render_test_ttf.assets env).text_subtitle
        + (optTex (render_test_ttf.assets env).text_title
        + (optTex (render_test_ttf.assets env).logo
        + (fontRes env.fontLarge FontVar.font_large
        + (fontRes env.fontMedium FontVar.font_medium
        + (fontRes env.fontSmall FontVar.font_small
        + {Res.renderer, Res.window, Res.img, Res.ttf, Res.sdl})))))) := by
  have hT : ∀ L, (render_test_ttf.titleStep env).calls.foldl liveStep L
      = optTex (render_test_ttf.titleStep env).val + L := by
    intro L
    unfold render_test_ttf.titleStep
    split
    · exact live_renderText_none _ _ _ _ _ _
    · simp [optTex]
  have hS : ∀ L, (render_test_ttf.subtitleStep env).calls.foldl liveStep L
      = optTex (render_test_ttf.subtitleStep env).val + L := by
    intro L
    unfold render_test_ttf.subtitleStep
    split
    · exact live_renderText_none _ _ _ _ _ _
    · simp [optTex]
  have hL : ∀ L, (render_test_ttf.labelStep env).calls.foldl liveStep L
      = texsOf (render_test_ttf.labelStep env).val + L := by
    intro L
    unfold render_test_ttf.labelStep
    split
    · exact live_renderLabels env _ _ _
    · have : texsOf (List.replicate 10 none) = 0 := by decide
      simp only [List.foldl_nil]
      rw [this, zero_add]
  have hF : ∀ L, (render_test_ttf.openFonts env).foldl liveStep L
      = fontRes env.fontLarge FontVar.font_large
        + (fontRes env.fontMedium FontVar.font_medium
        + (fontRes env.fontSmall FontVar.font_small + L)) := by
    intro L
    simp only [render_test_ttf.openFonts]
    cases env.fontSmall <;> cases env.fontMedium <;> cases env.fontLarge <;>
      simp only [List.foldl_cons, List.foldl_nil, liveStep, acquires, releases, fontRes,
        if_true, if_false, Bool.false_eq_true, Multiset.singleton_add, zero_add]
  simp only [List.foldl_append, hT, hS, hL, hF, render_test_ttf.logoStep, live_loadLogo,
    render_test_ttf.assets]
  rfl

/-- The resources a call sequence releases. -/
theorem live_of_cleanup (l : List Call) (h : ∀ c ∈ l, isCleanupCall c = true) :
    ∀ L : Multiset Res,
      l.foldl liveStep L = L - ((l.filterMap releases : List Res) : Multiset Res) := by
  induction l with
  | nil => intro L; simp
  | cons c l ih =>
    intro L
    have hc := h c (List.mem_cons_self c l)
    have ih := ih fun d hd => h d (List.mem_cons_of_mem c hd)
    rw [List.foldl_cons, ih]
    cases c with
    | SDL_DestroyTexture t =>
      simp [liveStep, acquires, releases, ← Multiset.cons_coe, Multiset.sub_cons]
    | TTF_CloseFont f =>
      simp [liveStep, acquires, releases, ← Multiset.cons_coe, Multiset.sub_cons]
    | SDL_DestroyRenderer b =>
      cases b <;> simp [liveStep, acquires, releases, ← Multiset.cons_coe, Multiset.sub_cons]
    | SDL_DestroyWindow b =>
      cases b <;> simp [liveStep, acquires, releases, ← Multiset.cons_coe, Multiset.sub_cons]
    | IMG_Quit => simp [liveStep, acquires, releases, ← Multiset.cons_coe, Multiset.sub_cons]
    | TTF_Quit => simp [liveStep, acquires, releases, ← Multiset.cons_coe, Multiset.sub_cons]
    | SDL_Quit => simp [liveStep, acquires, releases, ← Multiset.cons_coe, Multiset.sub_cons]
    | _ => exact absurd hc (by simp [isCleanupCall])

theorem released_destroyIf (t : Option Handle) :
    (((render_test_ttf.destroyIf t).filterMap releases : List Res) : Multiset Res)
      = optTex t := by
  cases t <;> rfl

theorem released_closeIf (b : Bool) (f : FontVar) :
    (((render_test_ttf.closeIf b f).filterMap releases : List Res) : Multiset Res)
      = fontRes b f := by
  cases b <;> rfl

theorem released_destroyLabels (ts : List (Option Handle)) :
    (((render_test_ttf.destroyLabels ts).filterMap releases : List Res) : Multiset Res)
      = texsOf ts := by
  induction ts with
  | nil => rfl
  | cons t ts ih =>
    simp only [render_test_ttf.destroyLabels, List.filterMap_append, ← Multiset.coe_add, ih,
      released_destroyIf, texsOf]

theorem released_cleanup (A : render_test_ttf.Assets) (t : Option Handle) :
    (((render_test_ttf.cleanup A t).filterMap releases : List Res) : Multiset Res)
      = optTex t + optTex A.text_title + optTex A.text_subtitle + texsOf A.text_label
        + optTex A.logo + fontRes A.font_small FontVar.font_small
        + fontRes A.font_medium FontVar.font_medium
        + fontRes A.font_large FontVar.font_large
        + {Res.renderer, Res.window, Res.img, Res.ttf, Res.sdl} := by
  simp only [render_test_ttf.cleanup, List.filterMap_append, ← Multiset.coe_add,
    released_destroyIf, released_closeIf, released_destroyLabels]
  rfl

theorem render_test_ttf.live_frame (A : render_test_ttf.Assets) (fe : FrameEnv)
    (st : render_test_ttf.LoopState) (U L : Multiset Res)
    (h : L ≤ U + optTex st.text_fps) :
    (render_test_ttf.frameBody A fe st).2.foldl liveStep L
      ≤ U + optTex (render_test_ttf.frameBody A fe st).1.text_fps := by
  have hu : (render_test_ttf.updateFps A.font_small fe st).2.foldl liveStep L
        ≤ U + optTex (render_test_ttf.updateFps A.font_small fe st).1.text_fps := by
    unfold render_test_ttf.updateFps
    by_cases hb : (decide (10 ≤ st.fps_update_counter + 1) && A.font_small) = true
    · simp only [hb, if_true, List.foldl_append, live_renderText]
      have hdes : (render_test_ttf.destroyIf st.text_fps).foldl liveStep L ≤ U := by
        cases ht : st.text_fps with
        | none => simpa [ht, optTex, render_test_ttf.destroyIf] using h
        | some x =>
          rw [ht] at h
          have := Multiset.erase_le_erase (Res.texture x) h
          rw [optTex, Multiset.erase_add_right_pos _ (Multiset.mem_singleton_self _),
            Multiset.erase_singleton, add_zero] at this
          simpa [render_test_ttf.destroyIf, liveStep, acquires, releases] using this
      cases fe.fpsSurf <;> cases fe.fpsTex <;>
        simp only [render_test_ttf.renderText, Bool.and_self, Bool.and_false, Bool.and_true,
          Bool.false_eq_true, if_false, if_true]
      · exact le_trans hdes (Multiset.le_add_right _ _)
      · exact le_trans hdes (Multiset.le_add_right _ _)
      · simpa [optTex] using hdes
      · rw [optTex, ← Multiset.singleton_add, add_comm U]
        exact add_le_add_left hdes _
    · simp only [hb]
      exact h
  simp only [render_test_ttf.frameBody, List.foldl_append,
    live_of_draw _ (render_test_ttf.drawStatic_draw A),
    live_of_draw _ (render_test_ttf.copyIf_draw _ _), List.foldl_cons, List.foldl_nil]
  rw [liveStep_of_draw Call.SDL_RenderPresent rfl]
  exact hu


theorem simple_test.frames_draw_st (env : simple_test.Env) :
    ∀ c ∈ (simple_test.main env).frames.flatten, isDrawCall c = true := by
  intro c hc
  obtain ⟨f, hf, hcf⟩ := List.mem_flatten.1 hc
  rw [simple_test.frames_eq] at hf
  obtain ⟨i, _, rfl⟩ := List.mem_map.1 hf
  simp only [simple_test.frameBody, List.mem_cons, List.mem_singleton, List.not_mem_nil,
    or_false] at hcf
  rcases hcf with rfl | rfl | rfl | rfl <;> rfl

/-- C6: for each of the four programs, when `main` returns (on the normal
path and on every early-failure path, whatever calls failed), every
subsystem, window, renderer, font, surface and texture that a call handed
out has been given back: the collection of live resources is empty. -/
theorem no_resource_live_at_exit (es : simple_test.Env) (ek : test_kms.Env)
    (er : render_test.Env) (et : render_test_ttf.Env) (fuel : Nat) :
    live (simple_test.main es).trace = 0
    ∧ live (test_kms.main ek).trace = 0
    ∧ ((render_test.main er fuel).exit ≠ none → live (render_test.main er fuel).trace = 0)
    ∧ ((render_test_ttf.main et fuel).exit ≠ none →
        live (render_test_ttf.main et fuel).trace = 0) := by
  refine ⟨?_, ?_, ?_, ?_⟩
  · simp only [live, Run.trace, List.foldl_append,
      live_of_draw _ (simple_test.frames_draw_st es)]
    cases h1 : es.sdlInit <;> cases h2 : es.window <;> cases h3 : es.renderer <;>
      simp [simple_test.main, h1, h2, h3, liveStep, acquires, releases]
  · cases h1 : ek.sdlInit <;> cases h2 : ek.window <;>
      simp [test_kms.main, h1, h2, Run.trace, live, liveStep, acquires, releases]
  · simp only [live, Run.trace, List.foldl_append,
      live_of_draw _ (render_test.frames_draw_rt er fuel)]
    cases h : render_test.initOk er with
    | false =>
      revert h
      cases h1 : er.sdlInit <;> cases h2 : er.window <;> cases h3 : er.renderer <;>
        simp [render_test.main, render_test.initOk, h1, h2, h3, liveStep, acquires, releases]
    | true =>
      rw [render_test.main_of_ok_rt er h]
      simp only
      split
      · simp [liveStep, acquires, releases]
      · intro hne
        exact absurd rfl hne
  · cases h : render_test_ttf.initOk et with
    | false =>
      simp only [live, Run.trace, (render_test_ttf.exit_of_not_ok et h fuel).2,
        List.flatten_nil, List.append_nil, List.foldl_append]
      revert h
      cases h1 : et.sdlInit <;> cases h2 : et.ttfInit <;> cases h3 : et.imgInit <;>
        cases h4 : et.window <;> cases h5 : et.renderer <;>
        simp [render_test_ttf.main, render_test_ttf.initOk, h1, h2, h3, h4, h5, liveStep,
          acquires, releases]
    | true =>
      obtain ⟨U, hU⟩ : ∃ U, (render_test_ttf.initCalls ++ render_test_ttf.openFonts et
          ++ (render_test_ttf.logoStep et).calls ++ (render_test_ttf.titleStep et).calls
          ++ (render_test_ttf.subtitleStep et).calls
          ++ (render_test_ttf.labelStep et).calls).foldl liveStep 0 = U := ⟨_, rfl⟩
      have key := (render_test_ttf.loop_fold et (render_test_ttf.assets et) liveStep
        (fun st L => L ≤ U + optTex st.text_fps)
        (fun _ => True) (fun _ _ _ => trivial)
        (fun k st L hI => ⟨render_test_ttf.live_frame _ _ st _ L hI, fun _ => trivial⟩)
        fuel 0 (render_test_ttf.initState et) U
        (by simp [render_test_ttf.initState, optTex])).1
      simp only [live, Run.trace]
      rw [render_test_ttf.main_of_ok et h]
      simp only
      rw [List.foldl_append, List.foldl_append, hU]
      split
      · intro _
        rw [live_of_cleanup _ (render_test_ttf.cleanup_cleanup _ _), released_cleanup]
        refine tsub_eq_zero_of_le (le_trans key (le_of_eq ?_))
        rw [← hU, render_test_ttf.live_pre]
        simp only [render_test_ttf.assets]
        abel
      · intro hne
        exact absurd rfl hne

/-- C6 (witness): runs of the two looping programs that return; in the
second the fps label is regenerated twice and the second rendering fails. -/
theorem no_resource_live_at_exit_witness :
    live (render_test.main renderTwoFrames 3).trace = 0
    ∧ live (render_test_ttf.main ttfSecondRenderFails 21).trace = 0 :=
  ⟨(no_resource_live_at_exit simpleInitFails { sdlInit := true, window := true }
      renderTwoFrames ttfSecondRenderFails 3).2.2.1 (by decide),
   (no_resource_live_at_exit simpleInitFails { sdlInit := true, window := true }
      renderTwoFrames ttfSecondRenderFails 21).2.2.2 (by decide)⟩

/-! ### Use of a destroyed texture -/

/-- C10 (failing input): the second regeneration of the fps label fails to
render its text; the texture destroyed just before stays in `text_fps`, is
blitted in that same iteration and destroyed again by the cleanup. -/
theorem fps_texture_used_after_destroy :
    texSafeFrom [] (render_test_ttf.main ttfSecondRenderFails 21).trace = false
    ∧ (render_test_ttf.main ttfSecondRenderFails 21).exit = some 0
    ∧ [Call.SDL_DestroyTexture 27, Call.TTF_RenderText_Blended FontVar.font_small
          Slot.text_fps none, Call.SDL_RenderCopy 27 Slot.text_fps]
        <:+: (render_test_ttf.main ttfSecondRenderFails 21).trace
    ∧ (render_test_ttf.main ttfSecondRenderFails 21).post.count (Call.SDL_DestroyTexture 27)
        = 1 := by
  exact ⟨by decide!, by decide, by decide!, by decide!⟩

end TradingOS
